import Mathlib

/-!
# Event Management API: registration and cancellation

A shallow embedding of `Backend/src/controllers/eventController.js` and
`Backend/src/utils/validation.js`.

* The relational store is a record of three row lists (`events`, `users`,
  `registrations`); every SQL statement of the controllers is a list
  operation on it (`WHERE` is `List.filter`, `COUNT(*)` is `List.length`).
* A handler is a function from the request, the environment of the call
  (clock reading, id the store assigns to an inserted row, an optional
  storage fault) and the ledger to the HTTP response and the ledger
  afterwards.  A transaction that is rolled back leaves the ledger as it was.
* Timestamps are milliseconds as `Int`; capacities and counts are `Int`.
* Ids are strings; the store compares them for equality, as `WHERE id = $1`
  does. The `userId` of a request body is absent or a string.
* The schema (`migrations/create_tables.sql`) is not among the sources; its
  key constraints are the predicates `EventIdsUnique` and
  `RegistrationPairsUnique`, taken as hypotheses where a property needs them.
* Counts of registrations are exact integers (a number of the runtime is
  exact up to 2^53); the decimal arithmetic of the store is exact arithmetic
  on `ℚ`.
* The numbers of the listing route (`limit`, `offset`, `total`) are doubles:
  `parseInt` rounds the integer it reads to the nearest double
  (`roundToDouble`), the driver of the store and the JSON body write a number
  as its shortest decimal (`printedInt`), and the store accepts a `LIMIT` or
  an `OFFSET` from 0 to 2^63 - 1 (`storeRowCount`). The two statements of the
  listing read the same clock.
* The `Date` of the runtime is a parameter (`DateLib`); strings of the store
  are ordered by code points.
-/

namespace EventApi

/-! ## Data model -/

/-- Row of the `events` table. -/
structure Event where
  id : String
  title : String
  starts_at : Int
  ends_at : Option Int
  location : Option String
  capacity : Int
deriving DecidableEq, Repr

/-- Row of the `users` table. -/
structure User where
  id : String
  name : String
  email : String
deriving DecidableEq, Repr

/-- Row of the `registrations` table. -/
structure Registration where
  id : String
  user_id : String
  event_id : String
  registered_at : Int
deriving DecidableEq, Repr

/-- The capacity ledger: the three tables of the store. -/
structure Ledger where
  events : List Event
  users : List User
  registrations : List Registration
deriving DecidableEq, Repr

/-- Request of the register and cancel routes: `req.params.id` and
`req.body.userId` (absent, or a string). -/
structure Request where
  id : String
  userId : Option String
deriving DecidableEq, Repr

/-- Environment of one handler call: the reading of the clock (`new Date()`),
the id the store gives to a row it inserts, and an optional storage fault
`(k, code)`: the `k`-th statement the handler issues throws an error with
that `code` and has no effect. -/
structure Env where
  now : Int
  newId : String
  fault : Option (Nat × String)
deriving DecidableEq, Repr

/-- HTTP response: `sendError` (status, code, message), the 201 payload of
a registration, or the 200 payload of a cancellation. -/
inductive Response where
  | error (status : Nat) (code : String) (message : String)
  | registered (registrationId : String) (registered_at : Int) (message : String)
      (remaining_capacity : Int)
  | cancelled (message : String) (event_title : String)
deriving DecidableEq, Repr

/-- HTTP status of a response. -/
def Response.status : Response → Nat
  | .error s _ _ => s
  | .registered _ _ _ _ => 201
  | .cancelled _ _ => 200

/-! ## `utils/validation.js` -/

/-- Character class `[0-9a-f]` under the `i` flag. -/
def isHexChar (c : Char) : Bool :=
  ('0' ≤ c && c ≤ '9') || ('a' ≤ c && c ≤ 'f') || ('A' ≤ c && c ≤ 'F')

/-- Character class `[1-5]`. -/
def isVersionChar (c : Char) : Bool :=
  '1' ≤ c && c ≤ '5'

/-- Character class `[89ab]` under the `i` flag. -/
def isVariantChar (c : Char) : Bool :=
  c == '8' || c == '9' || c == 'a' || c == 'b' || c == 'A' || c == 'B'

/-- The regular expression of `isValidUUID` on the characters of its input:
`^[0-9a-f]{8}-[0-9a-f]{4}-[1-5][0-9a-f]{3}-[89ab][0-9a-f]{3}-[0-9a-f]{12}$`,
case-insensitive. -/
def uuidRegexTest (cs : List Char) : Bool :=
  cs.length == 36 &&
  (cs.take 8).all isHexChar &&
  cs.get? 8 == some '-' &&
  ((cs.drop 9).take 4).all isHexChar &&
  cs.get? 13 == some '-' &&
  (cs.drop 14).head?.any isVersionChar &&
  ((cs.drop 15).take 3).all isHexChar &&
  cs.get? 18 == some '-' &&
  (cs.drop 19).head?.any isVariantChar &&
  ((cs.drop 20).take 3).all isHexChar &&
  cs.get? 23 == some '-' &&
  ((cs.drop 24).take 12).all isHexChar

/-- `isValidUUID` of `utils/validation.js`. -/
def isValidUUID (uuid : String) : Bool :=
  uuidRegexTest uuid.toList

/-- `validateRegistrationData` of `utils/validation.js`: the list of error
messages for the `userId` of the request body. -/
def validateRegistrationData (userId : Option String) : List String :=
  match userId with
  | none => ["userId is required"]
  | some u =>
    if u = "" then ["userId is required"]
    else if !isValidUUID u then ["userId must be a valid UUID"]
    else []

/-! ## Statements issued against the store -/

/-- `SELECT id, title, starts_at, capacity FROM events WHERE id = $1`. -/
def selectEvent (db : Ledger) (id : String) : List Event :=
  db.events.filter (fun e => e.id == id)

/-- `SELECT id FROM users WHERE id = $1`. -/
def selectUser (db : Ledger) (userId : String) : List User :=
  db.users.filter (fun u => u.id == userId)

/-- `SELECT id FROM registrations WHERE user_id = $1 AND event_id = $2`. -/
def selectRegistration (db : Ledger) (userId id : String) : List Registration :=
  db.registrations.filter (fun r => r.user_id == userId && r.event_id == id)

/-- `SELECT COUNT(*) FROM registrations WHERE event_id = $1`. -/
def countRegistrations (db : Ledger) (id : String) : Nat :=
  (db.registrations.filter (fun r => r.event_id == id)).length

/-- `INSERT INTO registrations (user_id, event_id) VALUES ($1, $2)
RETURNING id, registered_at`: the inserted row and the ledger with it. -/
def insertRegistration (env : Env) (db : Ledger) (userId id : String) :
    Registration × Ledger :=
  let row : Registration :=
    { id := env.newId, user_id := userId, event_id := id, registered_at := env.now }
  (row, { db with registrations := db.registrations ++ [row] })

/-- `DELETE FROM registrations WHERE user_id = $1 AND event_id = $2
RETURNING id`: the deleted rows and the ledger without them. -/
def deleteRegistration (db : Ledger) (userId id : String) :
    List Registration × Ledger :=
  (db.registrations.filter (fun r => r.user_id == userId && r.event_id == id),
   { db with registrations :=
      db.registrations.filter (fun r => !(r.user_id == userId && r.event_id == id)) })

/-- The error code thrown when the handler issues its `k`-th statement, if
the store fails there. -/
def Env.throwsAt (env : Env) (k : Nat) : Option String :=
  match env.fault with
  | some (i, code) => if i = k then some code else none
  | none => none

/-! ## `controllers/eventController.js` -/

/-- Message of the capacity check of `registerUserForEvent`:
the template `Event is at full capacity (x/y)`. -/
def fullCapacityMessage (x y : Int) : String :=
  "Event is at full capacity (" ++ toString x ++ "/" ++ toString y ++ ")"

/-- The `catch` block of `registerUserForEvent`: the transaction is rolled
back and the error code of the store is mapped to a response. -/
def registerCatch (code : String) (db : Ledger) : Response × Ledger :=
  if code = "23503" then (.error 404 "NOT_FOUND" "User or event not found", db)
  else if code = "23505" then
    (.error 409 "CONFLICT" "User is already registered for this event", db)
  else (.error 500 "DATABASE_ERROR" "Failed to register user", db)

/-- `registerUserForEvent`: the response and the ledger after the call.
Statements, in the order issued: 0 `BEGIN`, 1 select of the event
(`FOR UPDATE`), 2 select of the user, 3 select of the registration,
4 count, 5 insert, 6 `COMMIT`. -/
def registerUserForEvent (env : Env) (req : Request) (db : Ledger) : Response × Ledger :=
  let id := req.id
  let userId := req.userId.getD ""
  if !isValidUUID id then
    (.error 400 "VALIDATION_ERROR" "Invalid event ID format", db)
  else
  let validationErrors := validateRegistrationData req.userId
  if validationErrors.length > 0 then
    (.error 400 "VALIDATION_ERROR" ("; ".intercalate validationErrors), db)
  else
  match env.throwsAt 0 with
  | some code => registerCatch code db
  | none =>
  match env.throwsAt 1 with
  | some code => registerCatch code db
  | none =>
  match selectEvent db id with
  | [] => (.error 404 "NOT_FOUND" "Event not found", db)
  | event :: _ =>
  if event.starts_at ≤ env.now then
    (.error 422 "BUSINESS_LOGIC_ERROR" "Cannot register for past events", db)
  else
  match env.throwsAt 2 with
  | some code => registerCatch code db
  | none =>
  if (selectUser db userId).length = 0 then
    (.error 404 "NOT_FOUND" "User not found", db)
  else
  match env.throwsAt 3 with
  | some code => registerCatch code db
  | none =>
  if (selectRegistration db userId id).length > 0 then
    (.error 409 "CONFLICT" "User is already registered for this event", db)
  else
  match env.throwsAt 4 with
  | some code => registerCatch code db
  | none =>
  let currentRegistrations : Int := (countRegistrations db id : Nat)
  if currentRegistrations ≥ event.capacity then
    (.error 422 "BUSINESS_LOGIC_ERROR"
      (fullCapacityMessage event.capacity event.capacity), db)
  else
  match env.throwsAt 5 with
  | some code => registerCatch code db
  | none =>
  let (row, db') := insertRegistration env db userId id
  match env.throwsAt 6 with
  | some code => registerCatch code db
  | none =>
  (.registered row.id row.registered_at
      ("Successfully registered for event: " ++ event.title)
      (event.capacity - currentRegistrations - 1), db')

/-- `cancelUserRegistration`: the response and the ledger after the call.
Statements, in the order issued: 0 select of the event, 1 delete. -/
def cancelUserRegistration (env : Env) (req : Request) (db : Ledger) : Response × Ledger :=
  let id := req.id
  let userId := req.userId.getD ""
  if !isValidUUID id then
    (.error 400 "VALIDATION_ERROR" "Invalid event ID format", db)
  else
  let validationErrors := validateRegistrationData req.userId
  if validationErrors.length > 0 then
    (.error 400 "VALIDATION_ERROR" ("; ".intercalate validationErrors), db)
  else
  match env.throwsAt 0 with
  | some _ => (.error 500 "DATABASE_ERROR" "Failed to cancel registration", db)
  | none =>
  match selectEvent db id with
  | [] => (.error 404 "NOT_FOUND" "Event not found", db)
  | event :: _ =>
  if event.starts_at ≤ env.now then
    (.error 422 "BUSINESS_LOGIC_ERROR" "Cannot cancel registration for past events", db)
  else
  match env.throwsAt 1 with
  | some _ => (.error 500 "DATABASE_ERROR" "Failed to cancel registration", db)
  | none =>
  let (rows, db') := deleteRegistration db userId id
  if rows.length = 0 then
    (.error 404 "NOT_FOUND" "Registration not found", db')
  else
    (.cancelled "Registration cancelled successfully" event.title, db')


/-! ## `getEventStats` -/

/-- Response of `getEventStats`: `sendError`, or the statistics. The field
`percentage_used` is the two-place decimal the store computes, which the
handler reads with `parseFloat`. -/
inductive StatsResponse where
  | error (status : Nat) (code : String) (message : String)
  | ok (total_registrations : Int) (remaining_capacity : Int) (percentage_used : ℚ)
deriving DecidableEq, Repr

/-- `ROUND(x, 2)` of the store on a decimal: the nearest multiple of 1/100,
ties away from zero. -/
def sqlRound2 (x : ℚ) : ℚ :=
  if 0 ≤ x then (⌊x * 100 + 1 / 2⌋ : ℚ) / 100 else -((⌊-x * 100 + 1 / 2⌋ : ℚ) / 100)

/-- `COUNT(r.id)` of the group with key `k` in
`FROM events e LEFT JOIN registrations r ON e.id = r.event_id GROUP BY key`,
the events being `es`: one joined row for every registration of every event of
the group. -/
def groupCount {κ : Type} [DecidableEq κ] (db : Ledger) (es : List Event) (key : Event → κ)
    (k : κ) : Nat :=
  ((es.filter (fun e => key e = k)).map (fun e => countRegistrations db e.id)).sum

/-- Row of the query of `getEventStats`. -/
structure StatsRow where
  capacity : Int
  total_registrations : Int
  remaining_capacity : Int
  percentage_used : ℚ
deriving DecidableEq, Repr

/-- The query of `getEventStats`: the events with the id, grouped by
`(e.id, e.capacity)`, each group with its count, `capacity - count` and
`ROUND(count::DECIMAL / capacity * 100, 2)`. The store raises a division by
zero when a group has capacity 0: the result is then `none`. -/
def statsQuery (db : Ledger) (id : String) : Option (List StatsRow) :=
  let es := selectEvent db id
  let groups := (es.map (fun e => (e.id, e.capacity))).dedup
  if groups.any (fun g => g.2 == 0) then none
  else some (groups.map (fun g =>
    let n : Int := (groupCount db es (fun e => (e.id, e.capacity)) g : Nat)
    { capacity := g.2, total_registrations := n, remaining_capacity := g.2 - n,
      percentage_used := sqlRound2 ((n : ℚ) / (g.2 : ℚ) * 100) }))

/-- `getEventStats`: the response (the ledger is only read). The handler
issues one statement, numbered 0. -/
def getEventStats (env : Env) (id : String) (db : Ledger) : StatsResponse :=
  if !isValidUUID id then
    .error 400 "VALIDATION_ERROR" "Invalid event ID format"
  else
  match env.throwsAt 0 with
  | some _ => .error 500 "DATABASE_ERROR" "Failed to fetch event statistics"
  | none =>
  match statsQuery db id with
  | none => .error 500 "DATABASE_ERROR" "Failed to fetch event statistics"
  | some [] => .error 404 "NOT_FOUND" "Event not found"
  | some (stats :: _) =>
    .ok stats.total_registrations stats.remaining_capacity stats.percentage_used

/-! ## `parseInt` and `validatePaginationParams` -/

/-- White space and line terminators of the language, which `parseInt` skips
and `trim` strips. -/
def isJsWhiteSpace (c : Char) : Bool :=
  c.val == 0x9 || c.val == 0xA || c.val == 0xB || c.val == 0xC || c.val == 0xD ||
  c.val == 0x20 || c.val == 0xA0 || c.val == 0x1680 || (0x2000 ≤ c.val && c.val ≤ 0x200A) ||
  c.val == 0x2028 || c.val == 0x2029 || c.val == 0x202F || c.val == 0x205F ||
  c.val == 0x3000 || c.val == 0xFEFF

/-- Value of a digit in the radix (10 or 16), if the character is one. -/
def digitValue (radix : Nat) (c : Char) : Option Nat :=
  if '0' ≤ c && c ≤ '9' then some (c.toNat - '0'.toNat)
  else if radix == 16 && 'a' ≤ c && c ≤ 'f' then some (c.toNat - 'a'.toNat + 10)
  else if radix == 16 && 'A' ≤ c && c ≤ 'F' then some (c.toNat - 'A'.toNat + 10)
  else none

/-- The integer that `parseInt(string)` without radix reads, before it is
made a number of the language: leading white space is skipped, a sign is
read, a leading `0x` or `0X` selects radix 16, and the longest run of digits
is the value; `none` when no digit is read. -/
def parseMathInt (s : String) : Option Int :=
  let cs := s.toList.dropWhile isJsWhiteSpace
  let signed : Bool × List Char :=
    match cs with
    | '-' :: r => (true, r)
    | '+' :: r => (false, r)
    | _ => (false, cs)
  let based : Nat × List Char :=
    match signed.2 with
    | '0' :: 'x' :: r => (16, r)
    | '0' :: 'X' :: r => (16, r)
    | _ => (10, signed.2)
  let digits := (based.2.takeWhile (fun c => (digitValue based.1 c).isSome)).filterMap
    (digitValue based.1)
  if digits.isEmpty then none
  else
    let n : Int := (digits.foldl (fun acc d => acc * based.1 + d) 0 : Nat)
    some (if signed.1 then -n else n)

/-- Number of low bits of `n` that the 53 bit significand of a double does
not hold: the least `e` with `n / 2 ^ e < 2 ^ 53`. The first argument bounds
the search; `n` itself is enough. -/
def lostBits : Nat → Nat → Nat
  | 0, _ => 0
  | fuel + 1, n => if n < 2 ^ 53 then 0 else lostBits fuel (n / 2) + 1

/-- The double nearest to the natural number `n`, a tie going to the even
significand, as an exact integer. The double is finite when the value is
below `2 ^ 1024`. -/
def roundToDouble (n : Nat) : Nat :=
  let e := lostBits n n
  let q := n / 2 ^ e
  let r := n % 2 ^ e
  if 2 * r > 2 ^ e ∨ (2 * r = 2 ^ e ∧ q % 2 = 1) then (q + 1) * 2 ^ e else q * 2 ^ e

/-- A number of the language that `parseInt` can return: `NaN`, a double
with an integer value (the two zeros are one value here: they compare alike
and both are falsy), or an infinity. -/
inductive JsInteger where
  | nan
  | finite (n : Int)
  | infinity (negative : Bool)
deriving DecidableEq, Repr

/-- `isNaN(x)`. -/
def JsInteger.isNaN (x : JsInteger) : Bool :=
  match x with
  | .nan => true
  | _ => false

/-- The comparison `x < c` with an integer `c`; false on `NaN`. -/
def JsInteger.lt (x : JsInteger) (c : Int) : Bool :=
  match x with
  | .nan => false
  | .finite n => decide (n < c)
  | .infinity negative => negative

/-- The comparison `x > c` with an integer `c`; false on `NaN`. -/
def JsInteger.gt (x : JsInteger) (c : Int) : Bool :=
  match x with
  | .nan => false
  | .finite n => decide (n > c)
  | .infinity negative => !negative

/-- The number of the language for the integer of the given sign and
magnitude: the nearest double, infinite from 2^1024 (that is `16 ^ 256`) on. -/
def toNumber (negative : Bool) (magnitude : Nat) : JsInteger :=
  let m := roundToDouble magnitude
  if m < 16 ^ 256 then .finite (if negative then -(m : Int) else (m : Int))
  else .infinity negative

/-- `parseInt(string)` without radix: the number of the language for the
integer read, `NaN` when no digit is read. An integer beyond 2^53 is rounded to
the nearest double, so that `parseInt("9007199254740993")` is
9007199254740992. -/
def parseInt (s : String) : JsInteger :=
  match parseMathInt s with
  | none => .nan
  | some m => toNumber (decide (m < 0)) m.natAbs

/-- `parseInt` of a query parameter, which may be `undefined` (`NaN`). -/
def parseIntParam (p : Option String) : JsInteger :=
  match p with
  | none => .nan
  | some s => parseInt s

/-- Query string of the listing route: `req.query.limit` and
`req.query.offset`, each absent or a string. -/
structure Query where
  limit : Option String
  offset : Option String
deriving DecidableEq, Repr

/-- `validatePaginationParams` of `utils/validation.js`. -/
def validatePaginationParams (query : Query) : List String :=
  let limitErrors :=
    match query.limit with
    | none => []
    | some limit =>
      let limitNum := parseInt limit
      if limitNum.isNaN || limitNum.lt 1 || limitNum.gt 100 then
        ["Limit must be a number between 1 and 100"]
      else []
  let offsetErrors :=
    match query.offset with
    | none => []
    | some offset =>
      let offsetNum := parseInt offset
      if offsetNum.isNaN || offsetNum.lt 0 then ["Offset must be a non-negative number"]
      else []
  limitErrors ++ offsetErrors

/-- The expression `x || d` on a number `x`: `d` when `x` is `NaN` or 0. -/
def orDefault (x : JsInteger) (d : Int) : JsInteger :=
  match x with
  | .nan => .finite d
  | .finite n => if n = 0 then .finite d else x
  | .infinity _ => x

/-- The sum `a + b` of two doubles with integer values: the double nearest
to the exact sum (finite for summands below `2 ^ 1023`). -/
def addNumbers (a b : Int) : Int :=
  if a + b < 0 then -(roundToDouble (a + b).natAbs : Nat) else (roundToDouble (a + b).natAbs : Nat)

/-- Search of `Number::toString` for the decimal of the double `x`: the
largest power of ten, from `10 ^ j` down, that has a multiple which reads back
as `x`; of two such multiples the one closer to `x`, and of two equally close
the even multiple. The digits of the text are those of the result. -/
def shortestDecimal (x : Nat) : Nat → Nat
  | 0 => x
  | j + 1 =>
    let p := 10 ^ (j + 1)
    let lo := x / p * p
    let hi := lo + p
    let okLo := decide (roundToDouble lo = x)
    let okHi := decide (roundToDouble hi = x)
    if okLo && okHi then
      if x - lo < hi - x then lo
      else if hi - x < x - lo then hi
      else if (x / p) % 2 = 0 then lo
      else hi
    else if okLo then lo
    else if okHi then hi
    else shortestDecimal x j

/-- Number of decimal digits of `n`, less one. The first argument bounds the
search; `n` itself is enough. -/
def decimalLog : Nat → Nat → Nat
  | 0, _ => 0
  | fuel + 1, n => if n < 10 then 0 else decimalLog fuel (n / 10) + 1

/-- The integer that the text `x.toString()` of a double `x` with an integer
value denotes: the digits of `shortestDecimal`, searched from the power of
ten that has one digit more than `x`. Both the driver of the store and
`res.json` write a number as this text. -/
def printedInt (x : Int) : Int :=
  let d : Nat := shortestDecimal x.natAbs (decimalLog x.natAbs x.natAbs + 1)
  if x < 0 then -(d : Int) else (d : Int)

/-- The number of rows that the store reads from a number passed as the
parameter of `LIMIT` or `OFFSET`, `none` when the statement fails. The driver
sends the text `x.toString()`, which from 10^21 on has an exponent and for an
infinity is `Infinity`; the store reads a `bigint` and accepts a count from 0
to 2^63 - 1. This is a property of the driver and of the store, not of the
sources. -/
def storeRowCount (x : JsInteger) : Option Nat :=
  match x with
  | .finite n =>
    if n < 0 ∨ 10 ^ 21 ≤ n then none
    else if printedInt n ≤ 2 ^ 63 - 1 then some (printedInt n).toNat
    else none
  | _ => none

/-! ## `getUpcomingEvents` -/

/-- Row of the listing query. -/
structure UpcomingRow where
  id : String
  title : String
  starts_at : Int
  location : Option String
  capacity : Int
  registered_count : Int
  remaining_capacity : Int
  is_full : Bool
deriving DecidableEq, Repr

/-- Pagination metadata of the listing, each number as the JSON body shows
it. -/
structure Pagination where
  limit : Int
  offset : Int
  total : Int
  hasMore : Bool
  nextOffset : Option Int
deriving DecidableEq, Repr

/-- Response of `getUpcomingEvents`. -/
inductive UpcomingResponse where
  | error (status : Nat) (code : String) (message : String)
  | ok (events : List UpcomingRow) (pagination : Pagination)
deriving DecidableEq, Repr

/-- Columns of `GROUP BY e.id, e.title, e.starts_at, e.location, e.capacity`. -/
def upcomingKey (e : Event) : String × String × Int × Option String × Int :=
  (e.id, e.title, e.starts_at, e.location, e.capacity)

/-- Order `e.location ASC NULLS LAST`; strings compare by code points. -/
def locationBefore : Option String → Option String → Bool
  | some x, some y => decide (x ≤ y)
  | some _, none => true
  | none, some _ => false
  | none, none => true

/-- Order `ORDER BY e.starts_at ASC, e.location ASC NULLS LAST` on the rows. -/
def orderedBefore (a b : UpcomingRow) : Bool :=
  decide (a.starts_at < b.starts_at) ||
    (a.starts_at == b.starts_at && locationBefore a.location b.location)

/-- `WHERE e.starts_at > NOW()`: the events that start strictly after now. -/
def upcomingEvents (now : Int) (db : Ledger) : List Event :=
  db.events.filter (fun e => e.starts_at > now)

/-- The row of one group of the listing query. -/
def upcomingRow (db : Ledger) (es : List Event)
    (g : String × String × Int × Option String × Int) : UpcomingRow :=
  let n : Int := (groupCount db es upcomingKey g : Nat)
  { id := g.1, title := g.2.1, starts_at := g.2.2.1, location := g.2.2.2.1,
    capacity := g.2.2.2.2, registered_count := n, remaining_capacity := g.2.2.2.2 - n,
    is_full := decide (n ≥ g.2.2.2.2) }

/-- The listing query before `LIMIT` and `OFFSET`: the upcoming events joined
with their registrations, grouped, and ordered (rows that tie are left in
the order of insertion sort). -/
def upcomingListing (now : Int) (db : Ledger) : List UpcomingRow :=
  let es := upcomingEvents now db
  let groups := (es.map upcomingKey).dedup
  (groups.map (upcomingRow db es)).insertionSort (fun a b => orderedBefore a b = true)

/-- `getUpcomingEvents`: the response (the ledger is only read). Statements,
in the order issued: 0 the listing query with `LIMIT $1 OFFSET $2`, which
fails when the store refuses the limit or the offset, 1 the count of the
upcoming events. `limit` and `offset` are doubles, `offset + limit` is their
sum as a double, and `total` is `parseInt` of the text of the count: the
double nearest to the count. The numbers of the metadata are the integers
that the JSON body shows (`printedInt`). -/
def getUpcomingEvents (env : Env) (query : Query) (db : Ledger) : UpcomingResponse :=
  let validationErrors := validatePaginationParams query
  if validationErrors.length > 0 then
    .error 400 "VALIDATION_ERROR" ("; ".intercalate validationErrors)
  else
  let limit := orDefault (parseIntParam query.limit) 20
  let offset := orDefault (parseIntParam query.offset) 0
  match env.throwsAt 0 with
  | some _ => .error 500 "DATABASE_ERROR" "Failed to fetch upcoming events"
  | none =>
  match limit, offset, storeRowCount limit, storeRowCount offset with
  | .finite limitNum, .finite offsetNum, some rowLimit, some rowOffset =>
    let rows := ((upcomingListing env.now db).drop rowOffset).take rowLimit
    match env.throwsAt 1 with
    | some _ => .error 500 "DATABASE_ERROR" "Failed to fetch upcoming events"
    | none =>
    let total : Int := (roundToDouble (upcomingEvents env.now db).length : Nat)
    let hasMore : Bool := decide (addNumbers offsetNum limitNum < total)
    .ok rows
      { limit := printedInt limitNum, offset := printedInt offsetNum,
        total := printedInt total, hasMore := hasMore,
        nextOffset :=
          if hasMore then some (printedInt (addNumbers offsetNum limitNum)) else none }
  | _, _, _, _ => .error 500 "DATABASE_ERROR" "Failed to fetch upcoming events"

/-! ## `validateEventData` and `createEvent` -/

/-- Value of a field of a JSON request body. A number with an integer value
is `number n`; any other number (with a fractional part, or infinite) is
`fraction`; an array or object is `object`. -/
inductive JsValue where
  | undefined
  | null
  | bool (b : Bool)
  | number (n : Int)
  | fraction
  | string (s : String)
  | object
deriving DecidableEq, Repr

/-- Truthiness of a value: what `!v` negates and `v || d`, `if (v)` test. -/
def JsValue.truthy : JsValue → Bool
  | .undefined => false
  | .null => false
  | .bool b => b
  | .number n => n != 0
  | .fraction => true
  | .string s => s != ""
  | .object => true

/-- The `Date` of the runtime, a parameter of the model: `newDate v` is the
time value of `new Date(v)` in milliseconds (`none` for an invalid date) and
`toISOString t` is the ISO text of a valid date. -/
structure DateLib where
  newDate : JsValue → Option Int
  toISOString : Int → String

/-- `String.prototype.trim`. -/
def jsTrim (s : String) : String :=
  String.mk (((s.toList.dropWhile isJsWhiteSpace).reverse.dropWhile isJsWhiteSpace).reverse)

/-- `String.prototype.length`: the number of UTF-16 code units. -/
def jsLength (s : String) : Nat :=
  (s.toList.map (fun c => if c.val ≥ 0x10000 then 2 else 1)).sum

/-- `isValidISODate` of `utils/validation.js`:
`!isNaN(date.getTime()) && dateString === date.toISOString()`; the strict
equality holds when the argument is that very string. -/
def isValidISODate (lib : DateLib) (dateString : JsValue) : Bool :=
  match lib.newDate dateString with
  | none => false
  | some t => dateString == .string (lib.toISOString t)

/-- `isFutureDate` of `utils/validation.js`:
`!isNaN(date.getTime()) && date > new Date()`. -/
def isFutureDate (lib : DateLib) (now : Int) (dateString : JsValue) : Bool :=
  match lib.newDate dateString with
  | none => false
  | some t => decide (t > now)

/-- The comparison `new Date(a) <= new Date(b)`, false when a date is
invalid. -/
def dateLe (lib : DateLib) (a b : JsValue) : Bool :=
  match lib.newDate a, lib.newDate b with
  | some x, some y => decide (x ≤ y)
  | _, _ => false

/-- Body of the create route: the five fields `validateEventData` reads. -/
structure EventData where
  title : JsValue
  starts_at : JsValue
  ends_at : JsValue
  location : JsValue
  capacity : JsValue
deriving DecidableEq, Repr

/-- Title rule of `validateEventData`. -/
def titleErrors (title : JsValue) : List String :=
  match title with
  | .string s =>
    if s = "" || jsTrim s = "" then ["Title is required and must be a non-empty string"]
    else if jsLength (jsTrim s) < 3 then ["Title must be at least 3 characters long"]
    else if jsLength (jsTrim s) > 255 then ["Title must not exceed 255 characters"]
    else []
  | _ => ["Title is required and must be a non-empty string"]

/-- Start date rule of `validateEventData`. -/
def startsAtErrors (lib : DateLib) (now : Int) (starts_at : JsValue) : List String :=
  if !starts_at.truthy then ["starts_at is required"]
  else if !isValidISODate lib starts_at then ["starts_at must be a valid ISO datetime"]
  else if !isFutureDate lib now starts_at then ["starts_at must be in the future"]
  else []

/-- End date rule of `validateEventData`. -/
def endsAtErrors (lib : DateLib) (starts_at ends_at : JsValue) : List String :=
  if ends_at.truthy then
    if !isValidISODate lib ends_at then ["ends_at must be a valid ISO datetime"]
    else if starts_at.truthy && dateLe lib ends_at starts_at then
      ["ends_at must be after starts_at"]
    else []
  else []

/-- Location rule of `validateEventData`. -/
def locationErrors (location : JsValue) : List String :=
  match location with
  | .null => []
  | .undefined => []
  | .string s =>
    if jsLength (jsTrim s) > 255 then ["Location must not exceed 255 characters"] else []
  | _ => ["Location must be a string"]

/-- Capacity rule of `validateEventData`. -/
def capacityErrors (capacity : JsValue) : List String :=
  if !capacity.truthy then ["Capacity is required"]
  else
    match capacity with
    | .number n =>
      if n ≤ 0 then ["Capacity must be greater than 0"]
      else if n > 1000 then ["Capacity must not exceed 1000"]
      else []
    | _ => ["Capacity must be an integer"]

/-- `validateEventData` of `utils/validation.js`: the error messages, in the
order the rules push them; `now` is the reading of the clock. -/
def validateEventData (lib : DateLib) (now : Int) (eventData : EventData) : List String :=
  titleErrors eventData.title ++ startsAtErrors lib now eventData.starts_at ++
    endsAtErrors lib eventData.starts_at eventData.ends_at ++
    locationErrors eventData.location ++ capacityErrors eventData.capacity

/-- Response of `createEvent`. -/
inductive CreateResponse where
  | error (status : Nat) (code : String) (message : String)
  | created (eventId : String) (message : String)
deriving DecidableEq, Repr

/-- The values `createEvent` passes to the `INSERT`, as a row of `events`
with the id the store assigns: `title.trim()`, `starts_at`,
`ends_at || null`, `location?.trim() || null`, `capacity`. The store reads a
date text as the instant the runtime reads it as. `none` when a value does
not fit its column. -/
def insertedEvent (lib : DateLib) (newId : String) (body : EventData) : Option Event :=
  match body.title, lib.newDate body.starts_at, body.capacity with
  | .string title, some startsAt, .number capacity =>
    let endsAt : Option (Option Int) :=
      if body.ends_at.truthy then (lib.newDate body.ends_at).map some else some none
    let location : Option (Option String) :=
      match body.location with
      | .null => some none
      | .undefined => some none
      | .string s => some (if jsTrim s = "" then none else some (jsTrim s))
      | _ => none
    match endsAt, location with
    | some e, some l => some ⟨newId, jsTrim title, startsAt, e, l, capacity⟩
    | _, _ => none
  | _, _, _ => none

/-- `createEvent`: the response and the ledger after the call. The handler
issues one statement, the `INSERT`, numbered 0. -/
def createEvent (lib : DateLib) (env : Env) (body : EventData) (db : Ledger) :
    CreateResponse × Ledger :=
  let validationErrors := validateEventData lib env.now body
  if validationErrors.length > 0 then
    (.error 400 "VALIDATION_ERROR" ("; ".intercalate validationErrors), db)
  else
  match env.throwsAt 0 with
  | some code =>
    if code = "23514" then
      (.error 400 "VALIDATION_ERROR" "Capacity must be between 1 and 1000", db)
    else (.error 500 "DATABASE_ERROR" "Failed to create event", db)
  | none =>
  match insertedEvent lib env.newId body with
  | none => (.error 500 "DATABASE_ERROR" "Failed to create event", db)
  | some row =>
    (.created row.id "Event created successfully", { db with events := db.events ++ [row] })

/-! ## Notions of the specification -/

/-- Point lookup of an event by id: the first row of `events` with that id
(the only one when ids are a primary key). -/
def lookupEvent (db : Ledger) (id : String) : Option Event :=
  db.events.find? (fun e => e.id == id)

/-- The user id resolves to a row of `users`. -/
def userExists (db : Ledger) (u : String) : Prop :=
  ∃ x ∈ db.users, x.id = u

/-- A registration for the pair (user, event) exists. -/
def isRegistered (db : Ledger) (u id : String) : Prop :=
  ∃ r ∈ db.registrations, r.user_id = u ∧ r.event_id = id

instance (db : Ledger) (u : String) : Decidable (userExists db u) := by
  unfold userExists; infer_instance

instance (db : Ledger) (u id : String) : Decidable (isRegistered db u id) := by
  unfold isRegistered; infer_instance

/-- Capacity invariant of the ledger: no event holds more registrations
than its capacity. -/
def CapacityInvariant (db : Ledger) : Prop :=
  ∀ e ∈ db.events, (countRegistrations db e.id : Int) ≤ e.capacity

instance (db : Ledger) : Decidable (CapacityInvariant db) := by
  unfold CapacityInvariant; infer_instance

/-- Modelled from the spec: the schema (`migrations/create_tables.sql`) is not
among the sources; the data model gives every event a unique identifier, the
primary key of `events`. -/
def EventIdsUnique (db : Ledger) : Prop :=
  (db.events.map Event.id).Nodup

instance (db : Ledger) : Decidable (EventIdsUnique db) := by
  unfold EventIdsUnique; infer_instance

/-- Modelled from the spec: the schema (`migrations/create_tables.sql`) is not
among the sources; the data model makes the pair (user, event) unique among
the registrations, `unique(user_id, event_id)`. -/
def RegistrationPairsUnique (db : Ledger) : Prop :=
  (db.registrations.map (fun r => (r.user_id, r.event_id))).Nodup

instance (db : Ledger) : Decidable (RegistrationPairsUnique db) := by
  unfold RegistrationPairsUnique; infer_instance

/-- The response is the capacity failure of `registerUserForEvent`: status
422, code `BUSINESS_LOGIC_ERROR` and the message `Event is at full capacity
(x/y)` for some numbers `x` and `y`. -/
def Response.isCapacityExceeded (r : Response) : Prop :=
  ∃ x y : Int, r = .error 422 "BUSINESS_LOGIC_ERROR" (fullCapacityMessage x y)

/-! ## Notions of the specification for the read and create routes -/

/-- The number of events of the ledger whose start time is strictly after
now. -/
def upcomingCount (now : Int) (db : Ledger) : Nat :=
  db.events.countP (fun e => decide (now < e.starts_at))

/-- The row of the listing for one event: the event with its count of
registrations, the remaining capacity and the full flag. -/
def eventRow (db : Ledger) (e : Event) : UpcomingRow :=
  { id := e.id, title := e.title, starts_at := e.starts_at, location := e.location,
    capacity := e.capacity, registered_count := (countRegistrations db e.id : Nat),
    remaining_capacity := e.capacity - (countRegistrations db e.id : Nat),
    is_full := decide ((countRegistrations db e.id : Int) ≥ e.capacity) }

/-- Constraints of the data model on an event created at time `now`: a
title that is not empty, a start time after `now`, an end time, if any, after
the start time, and a capacity from 1 to 1000. -/
def EventConstraints (now : Int) (e : Event) : Prop :=
  e.title ≠ "" ∧ now < e.starts_at ∧ (∀ t, e.ends_at = some t → e.starts_at < t) ∧
    1 ≤ e.capacity ∧ e.capacity ≤ 1000

/-! ## Serial runs -/

/-- Register calls for one event executed one after another, in the order of
the list: each call has its own environment and user id, and runs on the
ledger the previous call left. Yields the responses in order and the final
ledger. -/
def registerAll (id : String) : List (Env × String) → Ledger → List Response × Ledger
  | [], db => ([], db)
  | c :: calls, db =>
    let r := registerUserForEvent c.1 ⟨id, some c.2⟩ db
    let rest := registerAll id calls r.2
    (r.1 :: rest.1, rest.2)

/-- The row a successful register call inserts. -/
def rowOf (id : String) (c : Env × String) : Registration :=
  ⟨c.1.newId, c.2, id, c.1.now⟩

/-! ## Sample ledger -/

/-- Id of the sample event. -/
def sampleEventId : String := "eeeeeeee-eeee-4eee-8eee-eeeeeeeeeeee"

/-- Id of sample user A. -/
def userA : String := "aaaaaaaa-aaaa-4aaa-8aaa-aaaaaaaaaaaa"

/-- Id of sample user B. -/
def userB : String := "bbbbbbbb-bbbb-4bbb-8bbb-bbbbbbbbbbbb"

/-- Id of sample user C. -/
def userC : String := "cccccccc-cccc-4ccc-8ccc-cccccccccccc"

/-- The row of the sample event: "Launch", capacity 2, starting at time
1000. -/
def sampleEvent : Event :=
  ⟨sampleEventId, "Launch", 1000, none, none, 2⟩

/-- Sample ledger: the sample event, three users, no registration. -/
def sampleLedger : Ledger :=
  { events := [sampleEvent],
    users := [⟨userA, "A", "a@example.com"⟩, ⟨userB, "B", "b@example.com"⟩,
      ⟨userC, "C", "c@example.com"⟩],
    registrations := [] }

/-- Sample ledger in which user A holds one of the two seats. -/
def sampleLedgerA : Ledger :=
  { sampleLedger with registrations := [⟨"r1", userA, sampleEventId, 10⟩] }

/-- Sample ledger in which users A and B hold the two seats. -/
def sampleLedgerAB : Ledger :=
  { sampleLedger with registrations :=
      [⟨"r1", userA, sampleEventId, 10⟩, ⟨"r2", userB, sampleEventId, 20⟩] }

/-- Three register calls on the sample ledger, in the order C, A, B, at
times 1, 2, 3. -/
def sampleCalls : List (Env × String) :=
  [(⟨1, "r1", none⟩, userC), (⟨2, "r2", none⟩, userA), (⟨3, "r3", none⟩, userB)]

/-- Sample ledger: an event of capacity 4 with one registration. -/
def sampleStatsLedger : Ledger :=
  { events := [⟨sampleEventId, "Launch", 1000, none, none, 4⟩],
    users := [⟨userA, "A", "a@example.com"⟩],
    registrations := [⟨"r1", userA, sampleEventId, 10⟩] }

/-- Sample ledger of the listing: three upcoming events, stored out of
order, at times 3000, 1000 and 2000, and one past event. -/
def sampleListingLedger : Ledger :=
  { events := [⟨"e3", "Third", 3000, none, none, 5⟩, ⟨"e1", "First", 1000, none, some "Hall", 5⟩,
      ⟨"e0", "Past", 5, none, none, 5⟩, ⟨"e2", "Second", 2000, none, none, 1⟩],
    users := [⟨userA, "A", "a@example.com"⟩],
    registrations := [⟨"r1", userA, "e2", 10⟩] }

/-- A ledger of `n` events with distinct ids that all start at time 100, for
counts beyond the sample ledgers. -/
def crowdLedger (n : Nat) : Ledger :=
  { events := (List.range n).map
      (fun i => ⟨String.mk (List.replicate i 'e'), "Event", 100, none, none, 1⟩),
    users := [], registrations := [] }

/-- A sample `Date` for two instants: it reads `2030-01-01T00:00:00.000Z`
as 1893456000000 and `2030-01-02T00:00:00.000Z` as 1893542400000, a number as
its own time value, `null` and `false` as 0 and `true` as 1. -/
def sampleDateLib : DateLib where
  newDate v :=
    match v with
    | .string s =>
      if s = "2030-01-01T00:00:00.000Z" then some 1893456000000
      else if s = "2030-01-02T00:00:00.000Z" then some 1893542400000
      else none
    | .number n => some n
    | .null => some 0
    | .bool b => some (if b then 1 else 0)
    | _ => none
  toISOString t :=
    if t = 1893456000000 then "2030-01-01T00:00:00.000Z"
    else if t = 1893542400000 then "2030-01-02T00:00:00.000Z"
    else ""

/-- A sample body of the create route. -/
def sampleEventData : EventData :=
  { title := .string "  Launch party ", starts_at := .string "2030-01-01T00:00:00.000Z",
    ends_at := .string "2030-01-02T00:00:00.000Z", location := .null, capacity := .number 50 }

/-- The sample body with the JSON value `false` as `ends_at`. -/
def sampleEventDataFalseEnd : EventData :=
  { sampleEventData with ends_at := .bool false }

/-! ## Lemmas on the statements and on validation -/

theorem selectEvent_head (db : Ledger) (id : String) :
    (selectEvent db id).head? = lookupEvent db id := by
  simp [selectEvent, lookupEvent]

theorem selectEvent_nil_iff (db : Ledger) (id : String) :
    selectEvent db id = [] ↔ lookupEvent db id = none := by
  rw [← selectEvent_head]; cases selectEvent db id <;> simp

theorem selectEvent_cons (db : Ledger) (id : String) (e : Event) (rest : List Event)
    (h : selectEvent db id = e :: rest) : lookupEvent db id = some e := by
  rw [← selectEvent_head, h]; rfl

theorem selectUser_length (db : Ledger) (u : String) :
    (selectUser db u).length = 0 ↔ ¬ userExists db u := by
  simp [selectUser, userExists, List.filter_eq_nil_iff]

theorem selectRegistration_length (db : Ledger) (u id : String) :
    (selectRegistration db u id).length > 0 ↔ isRegistered db u id := by
  simp [selectRegistration, isRegistered, List.length_pos, List.filter_eq_nil_iff]

theorem fullCapacityMessage_head (x y : Int) :
    (fullCapacityMessage x y).data.head? = some 'E' := by
  rfl

theorem isValidUUID_ne_empty (u : String) (h : isValidUUID u = true) : u ≠ "" := by
  rintro rfl
  exact absurd h (by decide)

theorem validateRegistrationData_valid (u : String) (h : isValidUUID u = true) :
    validateRegistrationData (some u) = [] := by
  simp [validateRegistrationData, isValidUUID_ne_empty u h, h]

theorem validateRegistrationData_nil (o : Option String)
    (h : ¬ (validateRegistrationData o).length > 0) :
    ∃ u, o = some u ∧ isValidUUID u = true := by
  cases o with
  | none => simp [validateRegistrationData] at h
  | some u =>
    refine ⟨u, rfl, ?_⟩
    simp only [validateRegistrationData] at h
    split_ifs at h with h1 h2 <;> simp_all

theorem throwsAt_none (env : Env) (hf : env.fault = none) (k : Nat) :
    env.throwsAt k = none := by
  simp [Env.throwsAt, hf]

theorem registerCatch_error (code : String) (db : Ledger) :
    ∃ s c m, 400 ≤ s ∧ registerCatch code db = (.error s c m, db) := by
  unfold registerCatch
  split_ifs
  · exact ⟨_, _, _, by decide, rfl⟩
  · exact ⟨_, _, _, by decide, rfl⟩
  · exact ⟨_, _, _, by decide, rfl⟩

/-- Normal form of `registerUserForEvent` on well-formed ids when the store
does not fail. -/
theorem register_eq (env : Env) (id u : String) (db : Ledger)
    (hid : isValidUUID id = true) (hu : isValidUUID u = true) (hf : env.fault = none) :
    registerUserForEvent env ⟨id, some u⟩ db =
      match lookupEvent db id with
      | none => (.error 404 "NOT_FOUND" "Event not found", db)
      | some event =>
        if event.starts_at ≤ env.now then
          (.error 422 "BUSINESS_LOGIC_ERROR" "Cannot register for past events", db)
        else if ¬ userExists db u then (.error 404 "NOT_FOUND" "User not found", db)
        else if isRegistered db u id then
          (.error 409 "CONFLICT" "User is already registered for this event", db)
        else if event.capacity ≤ (countRegistrations db id : Int) then
          (.error 422 "BUSINESS_LOGIC_ERROR"
            (fullCapacityMessage event.capacity event.capacity), db)
        else
          (.registered env.newId env.now ("Successfully registered for event: " ++ event.title)
              (event.capacity - (countRegistrations db id : Int) - 1),
            { db with registrations :=
                db.registrations ++ [⟨env.newId, u, id, env.now⟩] }) := by
  have hsel := selectEvent_head db id
  unfold registerUserForEvent
  simp only [hid, validateRegistrationData_valid u hu, throwsAt_none env hf,
    Bool.not_true, Bool.false_eq_true, if_false, List.length_nil, gt_iff_lt, lt_self_iff_false,
    Option.getD_some]
  cases hse : selectEvent db id with
  | nil =>
    rw [hse] at hsel
    simp only [List.head?_nil] at hsel
    rw [← hsel]
  | cons event rest =>
    rw [hse] at hsel
    simp only [List.head?_cons] at hsel
    rw [← hsel]
    simp only [selectUser_length, ← gt_iff_lt, selectRegistration_length, insertRegistration, ge_iff_le]

/-- Every call of `registerUserForEvent` either answers with an error and
leaves the ledger as it was, or passed every check and appended one row. -/
theorem register_inv (env : Env) (req : Request) (db : Ledger) :
    (∃ s c m, 400 ≤ s ∧ registerUserForEvent env req db = (.error s c m, db)) ∨
    (∃ u e, req.userId = some u ∧ isValidUUID req.id = true ∧ isValidUUID u = true ∧
      lookupEvent db req.id = some e ∧ env.now < e.starts_at ∧ userExists db u ∧
      ¬ isRegistered db u req.id ∧ (countRegistrations db req.id : Int) < e.capacity ∧
      registerUserForEvent env req db =
        (.registered env.newId env.now ("Successfully registered for event: " ++ e.title)
            (e.capacity - (countRegistrations db req.id : Int) - 1),
          { db with registrations :=
              db.registrations ++ [⟨env.newId, u, req.id, env.now⟩] })) := by
  unfold registerUserForEvent
  dsimp only
  split
  · exact Or.inl ⟨_, _, _, by decide, rfl⟩
  rename_i h1
  split
  · exact Or.inl ⟨_, _, _, by decide, rfl⟩
  rename_i h2
  obtain ⟨u, hu, huv⟩ := validateRegistrationData_nil _ h2
  simp only [Bool.not_eq_true, Bool.not_eq_false_eq_eq_true] at h1
  split
  · exact Or.inl (registerCatch_error _ _)
  split
  · exact Or.inl (registerCatch_error _ _)
  split
  · exact Or.inl ⟨_, _, _, by decide, rfl⟩
  rename_i event rest hse
  have hlook := selectEvent_cons db req.id event rest hse
  split
  · exact Or.inl ⟨_, _, _, by decide, rfl⟩
  rename_i h3
  split
  · exact Or.inl (registerCatch_error _ _)
  split
  · exact Or.inl ⟨_, _, _, by decide, rfl⟩
  rename_i h4
  split
  · exact Or.inl (registerCatch_error _ _)
  split
  · exact Or.inl ⟨_, _, _, by decide, rfl⟩
  rename_i h5
  split
  · exact Or.inl (registerCatch_error _ _)
  split
  · exact Or.inl ⟨_, _, _, by decide, rfl⟩
  rename_i h6
  split
  · exact Or.inl (registerCatch_error _ _)
  split
  · exact Or.inl (registerCatch_error _ _)
  right
  rw [hu, Option.getD_some] at h4 h5 ⊢
  rw [selectUser_length] at h4
  rw [selectRegistration_length] at h5
  exact ⟨u, event, rfl, h1, huv, hlook, not_le.mp h3, not_not.mp h4, h5, not_le.mp h6, rfl⟩

theorem delete_no_match (db : Ledger) (u id : String) (h : ¬ isRegistered db u id) :
    db.registrations.filter (fun r => !(r.user_id == u && r.event_id == id)) =
      db.registrations := by
  rw [List.filter_eq_self]
  intro r hr
  simp only [Bool.not_eq_true', Bool.and_eq_false_imp, beq_iff_eq, beq_eq_false_iff_ne]
  intro h1 h2
  exact h ⟨r, hr, h1, h2⟩

theorem deleted_length (db : Ledger) (u id : String) :
    (db.registrations.filter (fun r => r.user_id == u && r.event_id == id)).length = 0 ↔
      ¬ isRegistered db u id := by
  have h := selectRegistration_length db u id
  unfold selectRegistration at h
  rw [← h]
  exact ⟨fun h0 => by rw [h0]; exact lt_irrefl 0, fun h0 => Nat.eq_zero_of_not_pos h0⟩

/-- Normal form of `cancelUserRegistration` on well-formed ids when the store
does not fail. -/
theorem cancel_eq (env : Env) (id u : String) (db : Ledger)
    (hid : isValidUUID id = true) (hu : isValidUUID u = true) (hf : env.fault = none) :
    cancelUserRegistration env ⟨id, some u⟩ db =
      match lookupEvent db id with
      | none => (.error 404 "NOT_FOUND" "Event not found", db)
      | some event =>
        if event.starts_at ≤ env.now then
          (.error 422 "BUSINESS_LOGIC_ERROR" "Cannot cancel registration for past events", db)
        else if ¬ isRegistered db u id then
          (.error 404 "NOT_FOUND" "Registration not found", db)
        else
          (.cancelled "Registration cancelled successfully" event.title,
            { db with registrations :=
                db.registrations.filter (fun r => !(r.user_id == u && r.event_id == id)) }) := by
  have hsel := selectEvent_head db id
  unfold cancelUserRegistration
  simp only [hid, validateRegistrationData_valid u hu, throwsAt_none env hf,
    Bool.not_true, Bool.false_eq_true, if_false, List.length_nil, gt_iff_lt, lt_self_iff_false,
    Option.getD_some]
  cases hse : selectEvent db id with
  | nil =>
    rw [hse] at hsel
    simp only [List.head?_nil] at hsel
    rw [← hsel]
  | cons event rest =>
    rw [hse] at hsel
    simp only [List.head?_cons] at hsel
    rw [← hsel]
    simp only [deleteRegistration, deleted_length]
    by_cases h3 : event.starts_at ≤ env.now
    · simp only [h3, if_true]
    · simp only [h3, if_false]
      by_cases h4 : isRegistered db u id
      · simp only [h4, not_true_eq_false, if_false]
      · simp only [h4, not_false_eq_true, if_true, delete_no_match db u id h4]

/-- Every call of `cancelUserRegistration` either answers with an error and
leaves the ledger as it was, or deleted the rows of the pair (user, event). -/
theorem cancel_inv (env : Env) (req : Request) (db : Ledger) :
    (∃ s c m, 400 ≤ s ∧ cancelUserRegistration env req db = (.error s c m, db)) ∨
    (∃ u e, req.userId = some u ∧ isValidUUID req.id = true ∧ isValidUUID u = true ∧
      lookupEvent db req.id = some e ∧ env.now < e.starts_at ∧ isRegistered db u req.id ∧
      cancelUserRegistration env req db =
        (.cancelled "Registration cancelled successfully" e.title,
          { db with registrations :=
              db.registrations.filter (fun r => !(r.user_id == u && r.event_id == req.id)) })) := by
  unfold cancelUserRegistration
  dsimp only
  split
  · exact Or.inl ⟨_, _, _, by decide, rfl⟩
  rename_i h1
  split
  · exact Or.inl ⟨_, _, _, by decide, rfl⟩
  rename_i h2
  obtain ⟨u, hu, huv⟩ := validateRegistrationData_nil _ h2
  simp only [Bool.not_eq_true, Bool.not_eq_false_eq_eq_true] at h1
  split
  · exact Or.inl ⟨_, _, _, by decide, rfl⟩
  split
  · exact Or.inl ⟨_, _, _, by decide, rfl⟩
  rename_i event rest hse
  have hlook := selectEvent_cons db req.id event rest hse
  split
  · exact Or.inl ⟨_, _, _, by decide, rfl⟩
  rename_i h3
  split
  · exact Or.inl ⟨_, _, _, by decide, rfl⟩
  rw [hu, Option.getD_some]
  simp only [deleteRegistration, deleted_length]
  split
  · rename_i h4
    rw [delete_no_match db u req.id h4]
    exact Or.inl ⟨_, _, _, by decide, rfl⟩
  · rename_i h4
    exact Or.inr ⟨u, event, rfl, h1, huv, hlook, not_le.mp h3, not_not.mp h4, rfl⟩

theorem lookupEvent_some (db : Ledger) (id : String) (e : Event)
    (h : lookupEvent db id = some e) : e ∈ db.events ∧ e.id = id := by
  unfold lookupEvent at h
  exact ⟨List.mem_of_find?_eq_some h, by simpa using List.find?_some h⟩

theorem count_mk_insert (ev : List Event) (us : List User) (regs : List Registration)
    (row : Registration) (x : String) :
    countRegistrations ⟨ev, us, regs ++ [row]⟩ x =
      countRegistrations ⟨ev, us, regs⟩ x + (if row.event_id = x then 1 else 0) := by
  unfold countRegistrations
  simp only [List.filter_append, List.length_append]
  by_cases h : row.event_id = x
  · simp [List.filter_cons, h]
  · simp [List.filter_cons, h]

theorem count_insert (db : Ledger) (row : Registration) (x : String) :
    countRegistrations { db with registrations := db.registrations ++ [row] } x =
      countRegistrations db x + (if row.event_id = x then 1 else 0) :=
  count_mk_insert db.events db.users db.registrations row x

theorem count_delete_le (db : Ledger) (p : Registration → Bool) (x : String) :
    countRegistrations { db with registrations := db.registrations.filter p } x ≤
      countRegistrations db x := by
  unfold countRegistrations
  simp only [List.filter_filter]
  rw [← List.countP_eq_length_filter, ← List.countP_eq_length_filter]
  apply List.countP_mono_left
  intro r _ hr
  simp only [Bool.and_eq_true] at hr
  exact hr.1

/-- Claim C1: the capacity invariant is preserved by every call of
`registerUserForEvent` and of `cancelUserRegistration`, whatever the request,
the time and the outcome (success, failure, storage fault): in a ledger whose
event ids are unique, if every event has at most `capacity` registrations
before the call, then so it has afterwards (and the event ids are still
unique, so the property carries through any sequence of calls). -/
theorem capacity_invariant_preserved (env : Env) (req : Request) (db : Ledger)
    (hkey : EventIdsUnique db) (hinv : CapacityInvariant db) :
    (EventIdsUnique (registerUserForEvent env req db).2 ∧
      CapacityInvariant (registerUserForEvent env req db).2) ∧
    (EventIdsUnique (cancelUserRegistration env req db).2 ∧
      CapacityInvariant (cancelUserRegistration env req db).2) := by
  constructor
  · rcases register_inv env req db with ⟨s, c, m, _, h⟩ | ⟨u, e, _, _, _, hlook, _, _, _, hcount, h⟩
    · rw [h]; exact ⟨hkey, hinv⟩
    · rw [h]
      refine ⟨hkey, ?_⟩
      intro e' he'
      have he'' : e' ∈ db.events := he'
      rw [count_insert]
      obtain ⟨hmem, heid⟩ := lookupEvent_some db req.id e hlook
      by_cases hx : req.id = e'.id
      · have : e = e' := List.inj_on_of_nodup_map hkey hmem he'' (heid.trans hx)
        subst this
        simp only [hx, if_true, Nat.cast_add, Nat.cast_one]
        rw [hx] at hcount
        omega
      · simp only [hx, if_false, Nat.add_zero]
        exact hinv e' he''
  · rcases cancel_inv env req db with ⟨s, c, m, _, h⟩ | ⟨u, e, _, _, _, _, _, _, h⟩
    · rw [h]; exact ⟨hkey, hinv⟩
    · rw [h]
      refine ⟨hkey, ?_⟩
      intro e' he'
      have he'' : e' ∈ db.events := he'
      have h1 := count_delete_le db (fun r => !(r.user_id == u && r.event_id == req.id)) e'.id
      have h2 := hinv e' he''
      exact le_trans (Int.ofNat_le.mpr h1) h2

/-- Witness of C1 on the sample ledger with one seat taken: user B registers
(the event becomes full) or asks to cancel. -/
theorem capacity_invariant_preserved_witness :
    (EventIdsUnique sampleLedgerA ∧ CapacityInvariant sampleLedgerA) ∧
    (EventIdsUnique (registerUserForEvent ⟨0, "r2", none⟩ ⟨sampleEventId, some userB⟩
        sampleLedgerA).2 ∧
      CapacityInvariant (registerUserForEvent ⟨0, "r2", none⟩ ⟨sampleEventId, some userB⟩
        sampleLedgerA).2) ∧
    (EventIdsUnique (cancelUserRegistration ⟨0, "r2", none⟩ ⟨sampleEventId, some userB⟩
        sampleLedgerA).2 ∧
      CapacityInvariant (cancelUserRegistration ⟨0, "r2", none⟩ ⟨sampleEventId, some userB⟩
        sampleLedgerA).2) :=
  ⟨⟨by decide, by decide⟩,
    capacity_invariant_preserved ⟨0, "r2", none⟩ ⟨sampleEventId, some userB⟩ sampleLedgerA
      (by decide) (by decide)⟩

/-- Claim C2: on well-formed ids and a store that does not fail,
`registerUserForEvent` answers with the error of the first failing check, in
the order: event missing (404 NOT_FOUND), start time not after now (422, also
when equal to now), user missing (404 NOT_FOUND), pair already registered
(409 CONFLICT), count at or above capacity (422); it answers 201 exactly when
no check fails. -/
theorem register_first_failing_check (env : Env) (id u : String) (db : Ledger)
    (hid : isValidUUID id = true) (hu : isValidUUID u = true) (hf : env.fault = none) :
    (lookupEvent db id = none →
      (registerUserForEvent env ⟨id, some u⟩ db).1 =
        .error 404 "NOT_FOUND" "Event not found") ∧
    (∀ e, lookupEvent db id = some e →
      (e.starts_at ≤ env.now →
        (registerUserForEvent env ⟨id, some u⟩ db).1 =
          .error 422 "BUSINESS_LOGIC_ERROR" "Cannot register for past events") ∧
      (env.now < e.starts_at → ¬ userExists db u →
        (registerUserForEvent env ⟨id, some u⟩ db).1 =
          .error 404 "NOT_FOUND" "User not found") ∧
      (env.now < e.starts_at → userExists db u → isRegistered db u id →
        (registerUserForEvent env ⟨id, some u⟩ db).1 =
          .error 409 "CONFLICT" "User is already registered for this event") ∧
      (env.now < e.starts_at → userExists db u → ¬ isRegistered db u id →
        e.capacity ≤ (countRegistrations db id : Int) →
        (registerUserForEvent env ⟨id, some u⟩ db).1 =
          .error 422 "BUSINESS_LOGIC_ERROR" (fullCapacityMessage e.capacity e.capacity)) ∧
      (env.now < e.starts_at → userExists db u → ¬ isRegistered db u id →
        (countRegistrations db id : Int) < e.capacity →
        (registerUserForEvent env ⟨id, some u⟩ db).1.status = 201)) ∧
    ((registerUserForEvent env ⟨id, some u⟩ db).1.status = 201 ↔
      ∃ e, lookupEvent db id = some e ∧ env.now < e.starts_at ∧ userExists db u ∧
        ¬ isRegistered db u id ∧ (countRegistrations db id : Int) < e.capacity) := by
  rw [register_eq env id u db hid hu hf]
  cases hlook : lookupEvent db id with
  | none => simp [Response.status]
  | some e =>
    simp only [reduceCtorEq, false_implies, Option.some.injEq, forall_eq', true_and,
      exists_eq_left']
    by_cases h1 : e.starts_at ≤ env.now
    · simp [h1, Response.status, not_lt.mpr h1]
    · by_cases h2 : userExists db u
      · by_cases h3 : isRegistered db u id
        · simp [h1, h2, h3, Response.status, not_le.mp h1]
        · by_cases h4 : e.capacity ≤ (countRegistrations db id : Int)
          · simp [h1, h2, h3, h4, Response.status, not_le.mp h1, not_lt.mpr h4]
          · simp [h1, h2, h3, h4, Response.status, not_le.mp h1, not_le.mp h4]
      · simp [h1, h2, Response.status, not_le.mp h1]

/-- Witness of C2 on the sample ledger: user A registers for the event at
time 0, and is refused at time 1000, the very start time of the event. -/
theorem register_first_failing_check_witness :
    ((registerUserForEvent ⟨0, "r1", none⟩ ⟨sampleEventId, some userA⟩ sampleLedger).1.status
        = 201 ↔
      ∃ e, lookupEvent sampleLedger sampleEventId = some e ∧ (0 : Int) < e.starts_at ∧
        userExists sampleLedger userA ∧ ¬ isRegistered sampleLedger userA sampleEventId ∧
        (countRegistrations sampleLedger sampleEventId : Int) < e.capacity) ∧
    (registerUserForEvent ⟨1000, "r1", none⟩ ⟨sampleEventId, some userA⟩ sampleLedger).1 =
      .error 422 "BUSINESS_LOGIC_ERROR" "Cannot register for past events" :=
  ⟨(register_first_failing_check ⟨0, "r1", none⟩ sampleEventId userA sampleLedger
      (by decide) (by decide) rfl).2.2,
    ((register_first_failing_check ⟨1000, "r1", none⟩ sampleEventId userA sampleLedger
      (by decide) (by decide) rfl).2.1 sampleEvent (by decide)).1 (by decide)⟩

/-- Claim C3: a successful `registerUserForEvent` (status 201) leaves the
ledger with exactly the previous registrations plus one new row for
(userId, eventId); the count of the event rises by exactly 1; the reported
`remaining_capacity` is `capacity - (countBefore + 1)`, is not negative, and
is the capacity minus the count after the call. -/
theorem register_success_effect (env : Env) (req : Request) (db : Ledger)
    (h : (registerUserForEvent env req db).1.status = 201) :
    ∃ u e, req.userId = some u ∧ lookupEvent db req.id = some e ∧
      (registerUserForEvent env req db).2 =
        { db with registrations := db.registrations ++ [⟨env.newId, u, req.id, env.now⟩] } ∧
      countRegistrations (registerUserForEvent env req db).2 req.id =
        countRegistrations db req.id + 1 ∧
      (registerUserForEvent env req db).1 =
        .registered env.newId env.now ("Successfully registered for event: " ++ e.title)
          (e.capacity - ((countRegistrations db req.id : Int) + 1)) ∧
      0 ≤ e.capacity - ((countRegistrations db req.id : Int) + 1) ∧
      e.capacity - ((countRegistrations db req.id : Int) + 1) =
        e.capacity - (countRegistrations (registerUserForEvent env req db).2 req.id : Int) := by
  rcases register_inv env req db with ⟨s, c, m, hs, h'⟩ | ⟨u, e, hu, _, _, hlook, _, _, _, hcount, h'⟩
  · rw [h'] at h
    simp only [Response.status] at h
    omega
  · refine ⟨u, e, hu, hlook, ?_⟩
    rw [h']
    simp only [count_insert, if_true, Nat.cast_add, Nat.cast_one, true_and]
    refine ⟨?_, ?_⟩
    · congr 1; omega
    · exact ⟨by omega, trivial⟩

/-- Witness of C3 on the sample ledger: user B takes the last seat. -/
theorem register_success_effect_witness :
    (registerUserForEvent ⟨0, "r2", none⟩ ⟨sampleEventId, some userB⟩ sampleLedgerA).1.status
        = 201 ∧
    ∃ u e, (⟨sampleEventId, some userB⟩ : Request).userId = some u ∧
      lookupEvent sampleLedgerA sampleEventId = some e ∧
      (registerUserForEvent ⟨0, "r2", none⟩ ⟨sampleEventId, some userB⟩ sampleLedgerA).2 =
        { sampleLedgerA with registrations :=
            sampleLedgerA.registrations ++ [⟨"r2", u, sampleEventId, 0⟩] } ∧
      countRegistrations
          (registerUserForEvent ⟨0, "r2", none⟩ ⟨sampleEventId, some userB⟩ sampleLedgerA).2
          sampleEventId =
        countRegistrations sampleLedgerA sampleEventId + 1 ∧
      (registerUserForEvent ⟨0, "r2", none⟩ ⟨sampleEventId, some userB⟩ sampleLedgerA).1 =
        .registered "r2" 0 ("Successfully registered for event: " ++ e.title)
          (e.capacity - ((countRegistrations sampleLedgerA sampleEventId : Int) + 1)) ∧
      0 ≤ e.capacity - ((countRegistrations sampleLedgerA sampleEventId : Int) + 1) ∧
      e.capacity - ((countRegistrations sampleLedgerA sampleEventId : Int) + 1) =
        e.capacity - (countRegistrations
          (registerUserForEvent ⟨0, "r2", none⟩ ⟨sampleEventId, some userB⟩ sampleLedgerA).2
          sampleEventId : Int) :=
  ⟨by decide,
    register_success_effect ⟨0, "r2", none⟩ ⟨sampleEventId, some userB⟩ sampleLedgerA
      (by decide)⟩

/-- Claim C4: atomicity on failure. Whenever `registerUserForEvent` or
`cancelUserRegistration` answers with an error response (validation error,
not found, past event, already registered, capacity exceeded, storage fault),
the ledger after the call, that is its events, users and registrations, is
the ledger before the call. -/
theorem failure_leaves_ledger_unchanged (env : Env) (req : Request) (db : Ledger) :
    (∀ s c m, (registerUserForEvent env req db).1 = .error s c m →
      (registerUserForEvent env req db).2 = db) ∧
    (∀ s c m, (cancelUserRegistration env req db).1 = .error s c m →
      (cancelUserRegistration env req db).2 = db) := by
  constructor
  · intro s c m h
    rcases register_inv env req db with ⟨_, _, _, _, h'⟩ | ⟨_, _, _, _, _, _, _, _, _, _, h'⟩
    · rw [h']
    · rw [h'] at h
      exact absurd h (by simp)
  · intro s c m h
    rcases cancel_inv env req db with ⟨_, _, _, _, h'⟩ | ⟨_, _, _, _, _, _, _, _, h'⟩
    · rw [h']
    · rw [h'] at h
      exact absurd h (by simp)

/-- Witness of C4 on the full sample ledger: user C is refused for lack of
capacity, and a cancellation by user C finds no registration. -/
theorem failure_leaves_ledger_unchanged_witness :
    ((registerUserForEvent ⟨0, "r3", none⟩ ⟨sampleEventId, some userC⟩ sampleLedgerAB).1 =
        .error 422 "BUSINESS_LOGIC_ERROR" "Event is at full capacity (2/2)" ∧
      (registerUserForEvent ⟨0, "r3", none⟩ ⟨sampleEventId, some userC⟩ sampleLedgerAB).2 =
        sampleLedgerAB) ∧
    ((cancelUserRegistration ⟨0, "r3", none⟩ ⟨sampleEventId, some userC⟩ sampleLedgerAB).1 =
        .error 404 "NOT_FOUND" "Registration not found" ∧
      (cancelUserRegistration ⟨0, "r3", none⟩ ⟨sampleEventId, some userC⟩ sampleLedgerAB).2 =
        sampleLedgerAB) :=
  ⟨⟨by decide,
      (failure_leaves_ledger_unchanged ⟨0, "r3", none⟩ ⟨sampleEventId, some userC⟩
        sampleLedgerAB).1 422 "BUSINESS_LOGIC_ERROR" "Event is at full capacity (2/2)"
        (by decide)⟩,
    ⟨by decide,
      (failure_leaves_ledger_unchanged ⟨0, "r3", none⟩ ⟨sampleEventId, some userC⟩
        sampleLedgerAB).2 404 "NOT_FOUND" "Registration not found" (by decide)⟩⟩

theorem isRegistered_mk_insert (ev : List Event) (us : List User) (regs : List Registration)
    (row : Registration) (u id : String) :
    isRegistered ⟨ev, us, regs ++ [row]⟩ u id ↔
      isRegistered ⟨ev, us, regs⟩ u id ∨ (row.user_id = u ∧ row.event_id = id) := by
  simp only [isRegistered, List.mem_append, List.mem_singleton]
  constructor
  · rintro ⟨r, hr | hr, h⟩
    · exact Or.inl ⟨r, hr, h⟩
    · subst hr; exact Or.inr h
  · rintro (⟨r, hr, h⟩ | h)
    · exact ⟨r, Or.inl hr, h⟩
    · exact ⟨row, Or.inr rfl, h⟩

theorem isRegistered_insert (db : Ledger) (row : Registration) (u id : String) :
    isRegistered { db with registrations := db.registrations ++ [row] } u id ↔
      isRegistered db u id ∨ (row.user_id = u ∧ row.event_id = id) :=
  isRegistered_mk_insert db.events db.users db.registrations row u id

/-- Serial run with `m` free seats: the first `m` calls succeed, each later
call is refused for lack of capacity, and the ledger gains the rows of the
first `m` calls. -/
theorem registerAll_run (id : String) (e : Event) (hid : isValidUUID id = true) :
    ∀ (calls : List (Env × String)) (db : Ledger) (m : Nat),
      lookupEvent db id = some e →
      (countRegistrations db id : Int) + m = e.capacity →
      (∀ c ∈ calls, c.1.fault = none ∧ c.1.now < e.starts_at ∧ isValidUUID c.2 = true ∧
        userExists db c.2 ∧ ¬ isRegistered db c.2 id) →
      (calls.map Prod.snd).Nodup →
      (∀ r ∈ (registerAll id calls db).1.take m, r.status = 201) ∧
      (registerAll id calls db).1.drop m =
        List.replicate (calls.length - m)
          (.error 422 "BUSINESS_LOGIC_ERROR" (fullCapacityMessage e.capacity e.capacity)) ∧
      (registerAll id calls db).1.length = calls.length ∧
      (registerAll id calls db).2 =
        { db with registrations := db.registrations ++ (calls.take m).map (rowOf id) } := by
  intro calls
  induction calls with
  | nil =>
    intro db m _ _ _ _
    simp [registerAll]
  | cons c rest ih =>
    intro db m hlook hcount hcalls hnodup
    obtain ⟨hf, hnow, hu, hex, hnot⟩ := hcalls c (List.mem_cons_self _ _)
    have hreq := register_eq c.1 id c.2 db hid hu hf
    simp only [hlook, not_le.mpr hnow, if_false, hex, not_true_eq_false, hnot] at hreq
    simp only [List.map_cons, List.nodup_cons] at hnodup
    cases m with
    | zero =>
      have hfull : e.capacity ≤ (countRegistrations db id : Int) := by
        simp only [Nat.cast_zero, add_zero] at hcount; omega
      simp only [hfull, if_true] at hreq
      have ih' := ih db 0 hlook hcount
        (fun c' hc' => hcalls c' (List.mem_cons_of_mem _ hc')) hnodup.2
      simp only [registerAll, hreq]
      simp only [List.take_zero, List.drop_zero, List.map_nil, List.append_nil,
        List.not_mem_nil, false_implies, implies_true, true_and, Nat.sub_zero,
        List.length_cons] at ih' ⊢
      refine ⟨?_, ?_, ih'.2.2⟩
      · rw [ih'.1, List.replicate_succ]
      · rw [ih'.2.1]
    | succ m =>
      have hfree : ¬ e.capacity ≤ (countRegistrations db id : Int) := by
        push_cast at hcount; omega
      simp only [hfree, if_false] at hreq
      have hcount' : ((countRegistrations { db with registrations :=
          db.registrations ++ [⟨c.1.newId, c.2, id, c.1.now⟩] } id : Nat) : Int) + m =
          e.capacity := by
        rw [count_insert]; push_cast at hcount ⊢; simp only [if_true]; omega
      have ih' := ih { db with registrations :=
          db.registrations ++ [⟨c.1.newId, c.2, id, c.1.now⟩] } m hlook hcount'
        (fun c' hc' => by
          obtain ⟨h1, h2, h3, h4, h5⟩ := hcalls c' (List.mem_cons_of_mem _ hc')
          refine ⟨h1, h2, h3, h4, ?_⟩
          rw [isRegistered_insert]
          rintro (h | ⟨h, _⟩)
          · exact h5 h
          · have h' : c.2 = c'.2 := h
            exact hnodup.1 (h' ▸ List.mem_map_of_mem Prod.snd hc')) hnodup.2
      simp only [registerAll, hreq]
      simp only [List.take_succ_cons, List.drop_succ_cons, List.length_cons, List.mem_cons,
        forall_eq_or_imp, Response.status, true_and, Nat.succ_sub_succ, List.map_cons]
      refine ⟨ih'.1, ih'.2.1, by rw [ih'.2.2.1], ?_⟩
      rw [ih'.2.2.2]
      simp [rowOf, List.append_assoc]

theorem not_registered_of_count_zero (db : Ledger) (u id : String)
    (h : countRegistrations db id = 0) : ¬ isRegistered db u id := by
  rintro ⟨r, hr, _, hid⟩
  unfold countRegistrations at h
  rw [List.length_eq_zero, List.filter_eq_nil_iff] at h
  exact h r hr (by simpa using hid)

theorem filter_event_rows (id : String) (cs : List (Env × String)) :
    (cs.map (rowOf id)).filter (fun r => r.event_id == id) = cs.map (rowOf id) := by
  rw [List.filter_eq_self]
  intro r hr
  obtain ⟨c, _, rfl⟩ := List.mem_map.mp hr
  simp [rowOf]

/-- Claim C5: `N` register calls by `N` distinct existing users for one future
event of capacity `C < N` without prior registrations, run one after another in
any order (the order of the list), give exactly `C` successes (the first `C`
calls) and `N - C` capacity failures; afterwards the event has exactly `C`
registrations, one for each successful caller and none duplicated. -/
theorem serial_registrations_fill_capacity (id : String) (e : Event) (C : Nat)
    (calls : List (Env × String)) (db : Ledger)
    (hid : isValidUUID id = true) (hlook : lookupEvent db id = some e)
    (hcap : e.capacity = (C : Int)) (hempty : countRegistrations db id = 0)
    (hcalls : ∀ c ∈ calls, c.1.fault = none ∧ c.1.now < e.starts_at ∧
      isValidUUID c.2 = true ∧ userExists db c.2)
    (hdistinct : (calls.map Prod.snd).Nodup) (hlt : C < calls.length) :
    ((registerAll id calls db).1.filter (fun r => r.status == 201)).length = C ∧
    ((registerAll id calls db).1.filter (fun r => r ==
      .error 422 "BUSINESS_LOGIC_ERROR" (fullCapacityMessage C C))).length = calls.length - C ∧
    (registerAll id calls db).1.length = calls.length ∧
    (∀ r ∈ (registerAll id calls db).1.take C, r.status = 201) ∧
    (∀ r ∈ (registerAll id calls db).1.drop C,
      r = .error 422 "BUSINESS_LOGIC_ERROR" (fullCapacityMessage C C)) ∧
    countRegistrations (registerAll id calls db).2 id = C ∧
    ((registerAll id calls db).2.registrations.filter (fun r => r.event_id == id)).map
      Registration.user_id = (calls.take C).map Prod.snd ∧
    (((registerAll id calls db).2.registrations.filter (fun r => r.event_id == id)).map
      Registration.user_id).Nodup := by
  obtain ⟨hT, hD, hL, hdb⟩ := registerAll_run id e hid calls db C hlook
    (by rw [hempty, hcap]; simp)
    (fun c hc => by
      obtain ⟨h1, h2, h3, h4⟩ := hcalls c hc
      exact ⟨h1, h2, h3, h4, not_registered_of_count_zero db c.2 id hempty⟩)
    hdistinct
  rw [hcap] at hD
  have hsplit := List.take_append_drop C (registerAll id calls db).1
  have hlenT : ((registerAll id calls db).1.take C).length = C := by
    rw [List.length_take, hL]; omega
  have hfilter : (db.registrations ++ (calls.take C).map (rowOf id)).filter
      (fun r => r.event_id == id) = (calls.take C).map (rowOf id) := by
    rw [List.filter_append, filter_event_rows]
    have h0 : db.registrations.filter (fun r => r.event_id == id) = [] := by
      unfold countRegistrations at hempty
      exact List.length_eq_zero.mp hempty
    rw [h0, List.nil_append]
  have husers : ((calls.take C).map (rowOf id)).map Registration.user_id =
      (calls.take C).map Prod.snd := by
    rw [List.map_map]; rfl
  refine ⟨?_, ?_, hL, hT, ?_, ?_, ?_, ?_⟩
  · rw [← hsplit, List.filter_append, hD, List.length_append]
    have h1 : ((registerAll id calls db).1.take C).filter (fun r => r.status == 201) =
        (registerAll id calls db).1.take C := by
      rw [List.filter_eq_self]
      intro r hr
      simpa using hT r hr
    have h2 : (List.replicate (calls.length - C) (Response.error 422 "BUSINESS_LOGIC_ERROR"
        (fullCapacityMessage C C))).filter (fun r => r.status == 201) = [] := by
      rw [List.filter_eq_nil_iff]
      intro r hr
      rw [List.eq_of_mem_replicate hr]
      simp [Response.status]
    rw [h1, h2, hlenT]; rfl
  · rw [← hsplit, List.filter_append, hD, List.length_append]
    have h1 : ((registerAll id calls db).1.take C).filter (fun r => r ==
        .error 422 "BUSINESS_LOGIC_ERROR" (fullCapacityMessage C C)) = [] := by
      rw [List.filter_eq_nil_iff]
      intro r hr hcon
      have h201 := hT r hr
      rw [beq_iff_eq] at hcon
      rw [hcon] at h201
      simp [Response.status] at h201
    have h2 : (List.replicate (calls.length - C) (Response.error 422 "BUSINESS_LOGIC_ERROR"
        (fullCapacityMessage C C))).filter (fun r => r ==
        .error 422 "BUSINESS_LOGIC_ERROR" (fullCapacityMessage C C)) =
        List.replicate (calls.length - C) (Response.error 422 "BUSINESS_LOGIC_ERROR"
        (fullCapacityMessage C C)) := by
      rw [List.filter_eq_self]
      intro r hr
      rw [List.eq_of_mem_replicate hr]
      simp
    rw [h1, h2, List.length_replicate, List.length_nil, Nat.zero_add]
  · intro r hr
    rw [hD] at hr
    exact List.eq_of_mem_replicate hr
  · unfold countRegistrations
    rw [hdb]
    show ((db.registrations ++ (calls.take C).map (rowOf id)).filter
      (fun r => r.event_id == id)).length = C
    rw [hfilter, List.length_map, List.length_take]; omega
  · rw [hdb]
    show ((db.registrations ++ (calls.take C).map (rowOf id)).filter
      (fun r => r.event_id == id)).map Registration.user_id = _
    rw [hfilter, husers]
  · rw [hdb]
    show (((db.registrations ++ (calls.take C).map (rowOf id)).filter
      (fun r => r.event_id == id)).map Registration.user_id).Nodup
    rw [hfilter, husers]
    exact hdistinct.sublist ((List.take_sublist C calls).map Prod.snd)

/-- Witness of C5: three users race for the two seats of the sample event. -/
theorem serial_registrations_fill_capacity_witness :
    (2 < sampleCalls.length ∧ countRegistrations sampleLedger sampleEventId = 0) ∧
    ((registerAll sampleEventId sampleCalls sampleLedger).1.filter
      (fun r => r.status == 201)).length = 2 ∧
    ((registerAll sampleEventId sampleCalls sampleLedger).1.filter (fun r => r ==
      .error 422 "BUSINESS_LOGIC_ERROR" (fullCapacityMessage (2 : Nat) (2 : Nat)))).length =
        sampleCalls.length - 2 ∧
    (registerAll sampleEventId sampleCalls sampleLedger).1.length = sampleCalls.length ∧
    (∀ r ∈ (registerAll sampleEventId sampleCalls sampleLedger).1.take 2, r.status = 201) ∧
    (∀ r ∈ (registerAll sampleEventId sampleCalls sampleLedger).1.drop 2,
      r = .error 422 "BUSINESS_LOGIC_ERROR" (fullCapacityMessage (2 : Nat) (2 : Nat))) ∧
    countRegistrations (registerAll sampleEventId sampleCalls sampleLedger).2 sampleEventId
      = 2 ∧
    ((registerAll sampleEventId sampleCalls sampleLedger).2.registrations.filter
      (fun r => r.event_id == sampleEventId)).map Registration.user_id =
        (sampleCalls.take 2).map Prod.snd ∧
    (((registerAll sampleEventId sampleCalls sampleLedger).2.registrations.filter
      (fun r => r.event_id == sampleEventId)).map Registration.user_id).Nodup :=
  ⟨⟨by decide, by decide⟩,
    serial_registrations_fill_capacity sampleEventId
      sampleEvent 2 sampleCalls sampleLedger
      (by decide) (by decide) (by decide) (by decide) (by decide) (by decide) (by decide)⟩

theorem selectRegistration_eq_nil (db : Ledger) (u id : String) (h : ¬ isRegistered db u id) :
    db.registrations.filter (fun r => r.user_id == u && r.event_id == id) = [] :=
  List.length_eq_zero.mp ((deleted_length db u id).mpr h)

/-- Claim C6: idempotent rejection. After a successful
`registerUserForEvent`, the same request issued again while the event is still
in the future (store not failing) is answered 409 CONFLICT "already
registered", also when the first call took the last seat, and the ledger then
holds exactly one registration for the pair (userId, eventId). -/
theorem second_register_rejected (env1 env2 : Env) (req : Request) (db : Ledger) (e : Event)
    (h1 : (registerUserForEvent env1 req db).1.status = 201)
    (hlook : lookupEvent db req.id = some e)
    (hfut : env2.now < e.starts_at) (hf2 : env2.fault = none) :
    (registerUserForEvent env2 req (registerUserForEvent env1 req db).2).1 =
      .error 409 "CONFLICT" "User is already registered for this event" ∧
    ∃ u, req.userId = some u ∧
      ((registerUserForEvent env2 req (registerUserForEvent env1 req db).2).2.registrations.filter
        (fun r => r.user_id == u && r.event_id == req.id)).length = 1 := by
  rcases register_inv env1 req db with ⟨s, c, m, hs, h'⟩ | ⟨u, e', hu, hid, huv, _, _, hex, hnot, _, h'⟩
  · rw [h'] at h1
    simp only [Response.status] at h1
    omega
  · obtain ⟨id, userId⟩ := req
    simp only at hu hid hlook hnot h' ⊢
    subst hu
    rw [h']
    simp only
    have hreg : isRegistered { db with registrations :=
        db.registrations ++ [⟨env1.newId, u, id, env1.now⟩] } u id := by
      rw [isRegistered_insert]; exact Or.inr ⟨rfl, rfl⟩
    have hlook' : lookupEvent { db with registrations :=
        db.registrations ++ [⟨env1.newId, u, id, env1.now⟩] } id = some e := hlook
    have hex' : userExists { db with registrations :=
        db.registrations ++ [⟨env1.newId, u, id, env1.now⟩] } u := hex
    rw [register_eq env2 id u _ hid huv hf2]
    simp only [hlook', not_le.mpr hfut, if_false, hex', not_true_eq_false, hreg, if_true,
      true_and]
    refine ⟨u, rfl, ?_⟩
    rw [List.filter_append, selectRegistration_eq_nil db u id hnot]
    simp

/-- Witness of C6: user B takes the last seat of the sample event and asks
again. -/
theorem second_register_rejected_witness :
    (registerUserForEvent ⟨5, "r3", none⟩ ⟨sampleEventId, some userB⟩
      (registerUserForEvent ⟨0, "r2", none⟩ ⟨sampleEventId, some userB⟩ sampleLedgerA).2).1 =
      .error 409 "CONFLICT" "User is already registered for this event" ∧
    ∃ u, (⟨sampleEventId, some userB⟩ : Request).userId = some u ∧
      ((registerUserForEvent ⟨5, "r3", none⟩ ⟨sampleEventId, some userB⟩
        (registerUserForEvent ⟨0, "r2", none⟩ ⟨sampleEventId, some userB⟩
          sampleLedgerA).2).2.registrations.filter
        (fun r => r.user_id == u && r.event_id == sampleEventId)).length = 1 :=
  second_register_rejected ⟨0, "r2", none⟩ ⟨5, "r3", none⟩ ⟨sampleEventId, some userB⟩
    sampleLedgerA sampleEvent
    (by decide) (by decide) (by decide) rfl

/-- Claim C7: round trip. After a successful `registerUserForEvent`, a
`cancelUserRegistration` of the same request issued while the event is still
in the future (store not failing) succeeds, and the ledger is again the one
before the register call: every event has the registration count it had, and
the (user, event) pairs are the same. -/
theorem register_then_cancel_restores (env1 env2 : Env) (req : Request) (db : Ledger)
    (e : Event)
    (h1 : (registerUserForEvent env1 req db).1.status = 201)
    (hlook : lookupEvent db req.id = some e)
    (hfut : env2.now < e.starts_at) (hf2 : env2.fault = none) :
    (cancelUserRegistration env2 req (registerUserForEvent env1 req db).2).1 =
      .cancelled "Registration cancelled successfully" e.title ∧
    (cancelUserRegistration env2 req (registerUserForEvent env1 req db).2).2 = db ∧
    (∀ x, countRegistrations
        (cancelUserRegistration env2 req (registerUserForEvent env1 req db).2).2 x =
      countRegistrations db x) ∧
    (cancelUserRegistration env2 req (registerUserForEvent env1 req db).2).2.registrations.map
        (fun r => (r.user_id, r.event_id)) =
      db.registrations.map (fun r => (r.user_id, r.event_id)) := by
  rcases register_inv env1 req db with ⟨s, c, m, hs, h'⟩ | ⟨u, e', hu, hid, huv, _, _, hex, hnot, _, h'⟩
  · rw [h'] at h1
    simp only [Response.status] at h1
    omega
  · obtain ⟨id, userId⟩ := req
    simp only at hu hid hlook hnot h' ⊢
    subst hu
    rw [h']
    simp only
    have hreg : isRegistered { db with registrations :=
        db.registrations ++ [⟨env1.newId, u, id, env1.now⟩] } u id := by
      rw [isRegistered_insert]; exact Or.inr ⟨rfl, rfl⟩
    have hlook' : lookupEvent { db with registrations :=
        db.registrations ++ [⟨env1.newId, u, id, env1.now⟩] } id = some e := hlook
    have hback : ({ db with registrations :=
        ((db.registrations ++ [(⟨env1.newId, u, id, env1.now⟩ : Registration)]).filter
          (fun r => !(r.user_id == u && r.event_id == id))) } : Ledger) = db := by
      rw [List.filter_append, delete_no_match db u id hnot]
      simp
    rw [cancel_eq env2 id u _ hid huv hf2]
    simp only [hlook', not_le.mpr hfut, if_false, hreg, not_true_eq_false, true_and]
    exact ⟨hback, fun x => by rw [hback],
      congrArg (fun l : Ledger => l.registrations.map (fun r => (r.user_id, r.event_id))) hback⟩

/-- Witness of C7: user B registers on the sample ledger and cancels. -/
theorem register_then_cancel_restores_witness :
    (cancelUserRegistration ⟨5, "r3", none⟩ ⟨sampleEventId, some userB⟩
      (registerUserForEvent ⟨0, "r2", none⟩ ⟨sampleEventId, some userB⟩ sampleLedgerA).2).2 =
      sampleLedgerA :=
  (register_then_cancel_restores ⟨0, "r2", none⟩ ⟨5, "r3", none⟩
    ⟨sampleEventId, some userB⟩ sampleLedgerA sampleEvent
    (by decide) (by decide) (by decide) rfl).2.1

theorem delete_length_list (u id : String) :
    ∀ l : List Registration, (l.map (fun r => (r.user_id, r.event_id))).Nodup →
      (∃ r ∈ l, r.user_id = u ∧ r.event_id = id) →
      (l.filter (fun r => !(r.user_id == u && r.event_id == id))).length + 1 = l.length := by
  intro l
  induction l with
  | nil => intro _ h; obtain ⟨r, hr, _⟩ := h; cases hr
  | cons a t ih =>
    intro hnd hex
    simp only [List.map_cons, List.nodup_cons] at hnd
    by_cases ha : a.user_id = u ∧ a.event_id = id
    · have hkeep : t.filter (fun r => !(r.user_id == u && r.event_id == id)) = t := by
        rw [List.filter_eq_self]
        intro r hr
        simp only [Bool.not_eq_true', Bool.and_eq_false_imp, beq_iff_eq, beq_eq_false_iff_ne]
        intro h1 h2
        apply hnd.1
        rw [ha.1, ha.2, ← h1]
        exact h2 ▸ List.mem_map_of_mem (fun r : Registration => (r.user_id, r.event_id)) hr
      rw [List.filter_cons]
      simp only [ha.1, ha.2, beq_self_eq_true, Bool.and_self, Bool.not_true, Bool.false_eq_true,
        if_false, hkeep, List.length_cons]
    · have hex' : ∃ r ∈ t, r.user_id = u ∧ r.event_id = id := by
        obtain ⟨r, hr, h⟩ := hex
        rcases List.mem_cons.mp hr with rfl | hr'
        · exact absurd h ha
        · exact ⟨r, hr', h⟩
      have hcond : (!(a.user_id == u && a.event_id == id)) = true := by
        simp only [Bool.not_eq_true', Bool.and_eq_false_imp, beq_iff_eq, beq_eq_false_iff_ne]
        intro h1 h2
        exact ha ⟨h1, h2⟩
      rw [List.filter_cons, if_pos hcond, List.length_cons, List.length_cons, ih hnd.2 hex']

theorem mem_delete (db : Ledger) (u id : String) (r : Registration) :
    r ∈ db.registrations.filter (fun r => !(r.user_id == u && r.event_id == id)) ↔
      r ∈ db.registrations ∧ ¬ (r.user_id = u ∧ r.event_id = id) := by
  simp only [List.mem_filter, Bool.not_eq_true', Bool.and_eq_false_imp, beq_iff_eq,
    beq_eq_false_iff_ne, ne_eq, not_and]

/-- Claim C8: on well-formed ids and a store that does not fail,
`cancelUserRegistration` answers 404 NOT_FOUND when the event is missing;
otherwise 422 when its start time is not after now; otherwise 404 NOT_FOUND
when no registration for (user, event) exists; otherwise it succeeds, returns
the title of the event, removes the registration of the pair and nothing
else (one row, by uniqueness of the pair), and leaves events and users as
they were. -/
theorem cancel_checks_and_effect (env : Env) (id u : String) (db : Ledger)
    (hid : isValidUUID id = true) (hu : isValidUUID u = true) (hf : env.fault = none) :
    (lookupEvent db id = none →
      (cancelUserRegistration env ⟨id, some u⟩ db).1 =
        .error 404 "NOT_FOUND" "Event not found") ∧
    (∀ e, lookupEvent db id = some e →
      (e.starts_at ≤ env.now →
        (cancelUserRegistration env ⟨id, some u⟩ db).1 =
          .error 422 "BUSINESS_LOGIC_ERROR" "Cannot cancel registration for past events") ∧
      (env.now < e.starts_at → ¬ isRegistered db u id →
        (cancelUserRegistration env ⟨id, some u⟩ db).1 =
          .error 404 "NOT_FOUND" "Registration not found") ∧
      (env.now < e.starts_at → isRegistered db u id →
        (cancelUserRegistration env ⟨id, some u⟩ db).1 =
          .cancelled "Registration cancelled successfully" e.title ∧
        (cancelUserRegistration env ⟨id, some u⟩ db).2.events = db.events ∧
        (cancelUserRegistration env ⟨id, some u⟩ db).2.users = db.users ∧
        (cancelUserRegistration env ⟨id, some u⟩ db).2.registrations =
          db.registrations.filter (fun r => !(r.user_id == u && r.event_id == id)) ∧
        (∀ r, r ∈ (cancelUserRegistration env ⟨id, some u⟩ db).2.registrations ↔
          r ∈ db.registrations ∧ ¬ (r.user_id = u ∧ r.event_id = id)) ∧
        (RegistrationPairsUnique db →
          (cancelUserRegistration env ⟨id, some u⟩ db).2.registrations.length + 1 =
            db.registrations.length))) := by
  rw [cancel_eq env id u db hid hu hf]
  cases hlook : lookupEvent db id with
  | none => simp
  | some e =>
    simp only [reduceCtorEq, false_implies, Option.some.injEq, forall_eq', true_and]
    by_cases h1 : e.starts_at ≤ env.now
    · simp [h1, not_lt.mpr h1]
    · by_cases h2 : isRegistered db u id
      · simp only [h1, if_false, h2, not_true_eq_false, false_implies, not_false_eq_true,
          not_le.mp h1, true_implies, true_and, reduceCtorEq]
        exact ⟨mem_delete db u id, fun huniq => delete_length_list u id _ huniq h2⟩
      · simp [h1, h2, not_le.mp h1]

/-- Witness of C8: user A cancels on the full sample ledger. -/
theorem cancel_checks_and_effect_witness :
    (cancelUserRegistration ⟨5, "x", none⟩ ⟨sampleEventId, some userA⟩ sampleLedgerAB).1 =
      .cancelled "Registration cancelled successfully" "Launch" ∧
    (cancelUserRegistration ⟨5, "x", none⟩ ⟨sampleEventId, some userA⟩
      sampleLedgerAB).2.registrations.length + 1 = sampleLedgerAB.registrations.length :=
  have h := ((cancel_checks_and_effect ⟨5, "x", none⟩ sampleEventId userA sampleLedgerAB
    (by decide) (by decide) rfl).2 sampleEvent
    (by decide)).2.2 (by decide) (by decide)
  ⟨h.1, h.2.2.2.2.2 (by decide)⟩

theorem fullCapacityMessage_ne_past (x y : Int) :
    "Cannot register for past events" ≠ fullCapacityMessage x y := by
  intro h
  have h' := congrArg (fun s : String => s.data.head?) h
  simp only [fullCapacityMessage_head] at h'
  exact absurd h' (by decide)

theorem registerCatch_not_full (code : String) (db : Ledger) :
    ¬ (registerCatch code db).1.isCapacityExceeded := by
  rintro ⟨x, y, h⟩
  unfold registerCatch at h
  split_ifs at h <;> simp at h

/-- A capacity failure of `registerUserForEvent` means that every earlier
check passed and the count reached the capacity. -/
theorem register_full_inv (env : Env) (req : Request) (db : Ledger)
    (h : (registerUserForEvent env req db).1.isCapacityExceeded) :
    ∃ u e, req.userId = some u ∧ isValidUUID req.id = true ∧ isValidUUID u = true ∧
      lookupEvent db req.id = some e ∧ env.now < e.starts_at ∧ userExists db u ∧
      ¬ isRegistered db u req.id ∧ e.capacity ≤ (countRegistrations db req.id : Int) ∧
      registerUserForEvent env req db =
        (.error 422 "BUSINESS_LOGIC_ERROR" (fullCapacityMessage e.capacity e.capacity), db) := by
  revert h
  unfold registerUserForEvent
  dsimp only
  split
  · rintro ⟨x, y, h⟩; simp at h
  rename_i h1
  split
  · rintro ⟨x, y, h⟩; simp at h
  rename_i h2
  obtain ⟨u, hu, huv⟩ := validateRegistrationData_nil _ h2
  simp only [Bool.not_eq_true, Bool.not_eq_false_eq_eq_true] at h1
  split
  · exact fun h => absurd h (registerCatch_not_full _ _)
  split
  · exact fun h => absurd h (registerCatch_not_full _ _)
  split
  · rintro ⟨x, y, h⟩; simp at h
  rename_i event rest hse
  have hlook := selectEvent_cons db req.id event rest hse
  split
  · rintro ⟨x, y, h⟩
    simp only [Response.error.injEq, true_and] at h
    exact absurd h (fullCapacityMessage_ne_past x y)
  rename_i h3
  split
  · exact fun h => absurd h (registerCatch_not_full _ _)
  split
  · rintro ⟨x, y, h⟩; simp at h
  rename_i h4
  split
  · exact fun h => absurd h (registerCatch_not_full _ _)
  split
  · rintro ⟨x, y, h⟩; simp at h
  rename_i h5
  split
  · exact fun h => absurd h (registerCatch_not_full _ _)
  split
  · rename_i h6
    intro _
    rw [hu, Option.getD_some] at h4 h5
    rw [selectUser_length] at h4
    rw [selectRegistration_length] at h5
    exact ⟨u, event, hu, h1, huv, hlook, not_le.mp h3, not_not.mp h4, h5, h6, rfl⟩
  split
  · exact fun h => absurd h (registerCatch_not_full _ _)
  split
  · exact fun h => absurd h (registerCatch_not_full _ _)
  · rintro ⟨x, y, h⟩; simp at h

theorem count_delete (db : Ledger) (u id : String) (huniq : RegistrationPairsUnique db)
    (hreg : isRegistered db u id) :
    countRegistrations { db with registrations :=
      (db.registrations.filter (fun r => !(r.user_id == u && r.event_id == id))) } id + 1 =
      countRegistrations db id := by
  unfold countRegistrations
  simp only
  have hcomm : (db.registrations.filter (fun r => !(r.user_id == u && r.event_id == id))).filter
      (fun r => r.event_id == id) =
      (db.registrations.filter (fun r => r.event_id == id)).filter
        (fun r => !(r.user_id == u && r.event_id == id)) := by
    rw [List.filter_filter, List.filter_filter]
    congr 1
    funext r
    exact Bool.and_comm _ _
  rw [hcomm]
  apply delete_length_list
  · exact huniq.sublist ((List.filter_sublist db.registrations).map _)
  · obtain ⟨r, hr, h1, h2⟩ := hreg
    exact ⟨r, List.mem_filter.mpr ⟨hr, by simpa using h2⟩, h1, h2⟩

theorem isRegistered_of_delete (db : Ledger) (p : Registration → Bool) (u id : String)
    (h : isRegistered { db with registrations := db.registrations.filter p } u id) :
    isRegistered db u id := by
  obtain ⟨r, hr, h1⟩ := h
  exact ⟨r, (List.mem_filter.mp hr).1, h1⟩

/-- Freed seat, general form: in a ledger that satisfies the capacity
invariant and the uniqueness of (user, event) pairs, if a register call of
user `uC` is refused for lack of capacity and a cancel call of another user
`uA` for the same event then succeeds, an immediately following register call
of `uC` (event still in the future, store not failing) succeeds with
`remaining_capacity = 0`. -/
theorem seat_freed_after_cancel (env1 env2 env3 : Env) (id uA uC : String) (db : Ledger) (e : Event)
    (hinv : CapacityInvariant db) (huniq : RegistrationPairsUnique db)
    (hlook : lookupEvent db id = some e)
    (hfull : (registerUserForEvent env1 ⟨id, some uC⟩ db).1.isCapacityExceeded)
    (hcancel : (cancelUserRegistration env2 ⟨id, some uA⟩ db).1.status = 200)
    (hfut : env3.now < e.starts_at) (hf : env3.fault = none) :
    (registerUserForEvent env3 ⟨id, some uC⟩ (cancelUserRegistration env2 ⟨id, some uA⟩ db).2).1
      = .registered env3.newId env3.now ("Successfully registered for event: " ++ e.title) 0 := by
  obtain ⟨u, e1, hu, hid, huv, hlook1, _, hex, hnot, hge, _⟩ := register_full_inv _ _ _ hfull
  simp only at hu hid hlook1 hnot hge
  cases hu
  rw [hlook] at hlook1
  cases hlook1
  have hle := hinv e (lookupEvent_some db id e hlook).1
  rw [(lookupEvent_some db id e hlook).2] at hle
  rcases cancel_inv env2 ⟨id, some uA⟩ db with ⟨s, c, m, hs, h'⟩ | ⟨a, e2, ha, _, _, _, _, hreg, h'⟩
  · rw [h'] at hcancel
    simp only [Response.status] at hcancel
    omega
  · simp only at ha hreg h'
    cases ha
    rw [h']
    simp only
    have hcount := count_delete db uA id huniq hreg
    have hlook' : lookupEvent { db with registrations :=
        (db.registrations.filter (fun r => !(r.user_id == uA && r.event_id == id))) } id =
        some e := hlook
    have hex' : userExists { db with registrations :=
        (db.registrations.filter (fun r => !(r.user_id == uA && r.event_id == id))) } uC := hex
    have hnot' : ¬ isRegistered { db with registrations :=
        (db.registrations.filter (fun r => !(r.user_id == uA && r.event_id == id))) } uC id :=
      fun h => hnot (isRegistered_of_delete db _ uC id h)
    rw [register_eq env3 id uC _ hid huv hf]
    simp only [hlook', not_le.mpr hfut, if_false, hex', not_true_eq_false, hnot']
    have hfree : ¬ e.capacity ≤ ((countRegistrations { db with registrations :=
        (db.registrations.filter (fun r => !(r.user_id == uA && r.event_id == id))) } id : Nat)
        : Int) := by
      omega
    rw [if_neg hfree]
    simp only [Response.registered.injEq, true_and]
    omega

theorem register_ok (env : Env) (id u : String) (db : Ledger) (e : Event)
    (hid : isValidUUID id = true) (hu : isValidUUID u = true) (hf : env.fault = none)
    (hlook : lookupEvent db id = some e) (hfut : env.now < e.starts_at)
    (hex : userExists db u) (hnot : ¬ isRegistered db u id)
    (hfree : (countRegistrations db id : Int) < e.capacity) :
    registerUserForEvent env ⟨id, some u⟩ db =
      (.registered env.newId env.now ("Successfully registered for event: " ++ e.title)
          (e.capacity - (countRegistrations db id : Int) - 1),
        { db with registrations := db.registrations ++ [⟨env.newId, u, id, env.now⟩] }) := by
  rw [register_eq env id u db hid hu hf]
  simp only [hlook, not_le.mpr hfut, if_false, hex, not_true_eq_false, hnot, not_le.mpr hfree]

theorem register_full (env : Env) (id u : String) (db : Ledger) (e : Event)
    (hid : isValidUUID id = true) (hu : isValidUUID u = true) (hf : env.fault = none)
    (hlook : lookupEvent db id = some e) (hfut : env.now < e.starts_at)
    (hex : userExists db u) (hnot : ¬ isRegistered db u id)
    (hfull : e.capacity ≤ (countRegistrations db id : Int)) :
    registerUserForEvent env ⟨id, some u⟩ db =
      (.error 422 "BUSINESS_LOGIC_ERROR" (fullCapacityMessage e.capacity e.capacity), db) := by
  rw [register_eq env id u db hid hu hf]
  simp only [hlook, not_le.mpr hfut, if_false, hex, not_true_eq_false, hnot, hfull, if_true]

theorem cancel_ok (env : Env) (id u : String) (db : Ledger) (e : Event)
    (hid : isValidUUID id = true) (hu : isValidUUID u = true) (hf : env.fault = none)
    (hlook : lookupEvent db id = some e) (hfut : env.now < e.starts_at)
    (hreg : isRegistered db u id) :
    cancelUserRegistration env ⟨id, some u⟩ db =
      (.cancelled "Registration cancelled successfully" e.title,
        { db with registrations :=
            (db.registrations.filter (fun r => !(r.user_id == u && r.event_id == id))) }) := by
  rw [cancel_eq env id u db hid hu hf]
  simp only [hlook, not_le.mpr hfut, if_false, hreg, not_true_eq_false]

/-- The scenario of the specification on any ledger: for a future event of
capacity 2 without registrations and three distinct existing users A, B, C,
register A succeeds with remaining capacity 1, register B succeeds with 0,
register C is refused for lack of capacity, cancel A succeeds, register C
succeeds. -/
theorem scenario_capacity_two (id uA uB uC : String) (db : Ledger) (e : Event)
    (env1 env2 env3 env4 env5 : Env)
    (hid : isValidUUID id = true) (hA : isValidUUID uA = true) (hB : isValidUUID uB = true)
    (hC : isValidUUID uC = true)
    (hlook : lookupEvent db id = some e) (hcap : e.capacity = 2)
    (hempty : countRegistrations db id = 0)
    (hexA : userExists db uA) (hexB : userExists db uB) (hexC : userExists db uC)
    (hAB : uA ≠ uB) (hAC : uA ≠ uC) (hBC : uB ≠ uC)
    (hlive : ∀ env ∈ [env1, env2, env3, env4, env5],
      env.fault = none ∧ env.now < e.starts_at) :
    let s1 := registerUserForEvent env1 ⟨id, some uA⟩ db
    let s2 := registerUserForEvent env2 ⟨id, some uB⟩ s1.2
    let s3 := registerUserForEvent env3 ⟨id, some uC⟩ s2.2
    let s4 := cancelUserRegistration env4 ⟨id, some uA⟩ s3.2
    let s5 := registerUserForEvent env5 ⟨id, some uC⟩ s4.2
    s1.1 = .registered env1.newId env1.now ("Successfully registered for event: " ++ e.title) 1 ∧
    s2.1 = .registered env2.newId env2.now ("Successfully registered for event: " ++ e.title) 0 ∧
    s3.1 = .error 422 "BUSINESS_LOGIC_ERROR" (fullCapacityMessage 2 2) ∧
    s4.1 = .cancelled "Registration cancelled successfully" e.title ∧
    s5.1 = .registered env5.newId env5.now ("Successfully registered for event: " ++ e.title) 0
    := by
  simp only [List.mem_cons, List.mem_singleton, List.not_mem_nil, or_false, forall_eq_or_imp,
    forall_eq] at hlive
  obtain ⟨⟨hf1, hn1⟩, ⟨hf2, hn2⟩, ⟨hf3, hn3⟩, ⟨hf4, hn4⟩, ⟨hf5, hn5⟩⟩ := hlive
  obtain ⟨ev, us, regs⟩ := db
  have hnone : ∀ u, ¬ isRegistered ⟨ev, us, regs⟩ u id :=
    fun u => not_registered_of_count_zero _ u id hempty
  -- register A
  have h1 := register_ok env1 id uA ⟨ev, us, regs⟩ e hid hA hf1 hlook hn1 hexA (hnone uA)
    (by rw [hempty, hcap]; decide)
  dsimp only at h1
  -- register B
  have hc1 := count_mk_insert ev us regs ⟨env1.newId, uA, id, env1.now⟩ id
  simp only [if_true, hempty] at hc1
  have h2 := register_ok env2 id uB ⟨ev, us, regs ++ [⟨env1.newId, uA, id, env1.now⟩]⟩ e
    hid hB hf2 hlook hn2 hexB
    (by rw [isRegistered_mk_insert]; rintro (h | ⟨h, _⟩); exacts [hnone uB h, hAB h])
    (by rw [hc1, hcap]; decide)
  dsimp only at h2
  -- register C
  have hc2 := count_mk_insert ev us (regs ++ [⟨env1.newId, uA, id, env1.now⟩])
    ⟨env2.newId, uB, id, env2.now⟩ id
  simp only [if_true, hc1] at hc2
  have h3 := register_full env3 id uC
    ⟨ev, us, regs ++ [⟨env1.newId, uA, id, env1.now⟩] ++ [⟨env2.newId, uB, id, env2.now⟩]⟩
    e hid hC hf3 hlook hn3 hexC
    (by
      rw [isRegistered_mk_insert, isRegistered_mk_insert]
      rintro ((h | ⟨h, _⟩) | ⟨h, _⟩)
      exacts [hnone uC h, hAC h, hBC h])
    (by rw [hc2, hcap]; decide)
  -- cancel A
  have h4 := cancel_ok env4 id uA
    ⟨ev, us, regs ++ [⟨env1.newId, uA, id, env1.now⟩] ++ [⟨env2.newId, uB, id, env2.now⟩]⟩
    e hid hA hf4 hlook hn4
    (by rw [isRegistered_mk_insert, isRegistered_mk_insert]; exact Or.inl (Or.inr ⟨rfl, rfl⟩))
  dsimp only at h4
  have hdel : (regs ++ [(⟨env1.newId, uA, id, env1.now⟩ : Registration)] ++
      [(⟨env2.newId, uB, id, env2.now⟩ : Registration)]).filter
      (fun r => !(r.user_id == uA && r.event_id == id)) =
      regs ++ [(⟨env2.newId, uB, id, env2.now⟩ : Registration)] := by
    rw [List.filter_append, List.filter_append,
      delete_no_match ⟨ev, us, regs⟩ uA id (hnone uA)]
    simp [List.filter_cons, Ne.symm hAB]
  rw [hdel] at h4
  -- register C again
  have hc4 := count_mk_insert ev us regs ⟨env2.newId, uB, id, env2.now⟩ id
  simp only [if_true, hempty] at hc4
  have h5 := register_ok env5 id uC ⟨ev, us, regs ++ [⟨env2.newId, uB, id, env2.now⟩]⟩ e
    hid hC hf5 hlook hn5 hexC
    (by rw [isRegistered_mk_insert]; rintro (h | ⟨h, _⟩); exacts [hnone uC h, hBC h])
    (by rw [hc4, hcap]; decide)
  dsimp only at h5
  simp only [h1, h2, h3, h4, h5, hempty, hc1, hc4, hcap, Response.registered.injEq, true_and,
    and_true]
  decide

/-- Claim C9: freed seat. In a ledger that satisfies the capacity invariant
(and the uniqueness of (user, event) pairs), if `registerUserForEvent` for
user C is refused for lack of capacity and `cancelUserRegistration` for
another user A of the same event then succeeds, an immediately following
`registerUserForEvent` for C (event still in the future, store not failing)
succeeds and reports `remaining_capacity = 0`. In particular, for a future
event of capacity 2 without registrations: register A succeeds with
remaining capacity 1, register B succeeds with 0, register C is refused for
lack of capacity, cancel A succeeds, register C succeeds. -/
theorem freed_seat :
    (∀ (env1 env2 env3 : Env) (id uA uC : String) (db : Ledger) (e : Event),
      CapacityInvariant db → RegistrationPairsUnique db → lookupEvent db id = some e →
      (registerUserForEvent env1 ⟨id, some uC⟩ db).1.isCapacityExceeded →
      uA ≠ uC →
      (cancelUserRegistration env2 ⟨id, some uA⟩
        (registerUserForEvent env1 ⟨id, some uC⟩ db).2).1.status = 200 →
      env3.now < e.starts_at → env3.fault = none →
      (registerUserForEvent env3 ⟨id, some uC⟩
        (cancelUserRegistration env2 ⟨id, some uA⟩
          (registerUserForEvent env1 ⟨id, some uC⟩ db).2).2).1 =
        .registered env3.newId env3.now ("Successfully registered for event: " ++ e.title) 0) ∧
    (∀ (id uA uB uC : String) (db : Ledger) (e : Event) (env1 env2 env3 env4 env5 : Env),
      isValidUUID id = true → isValidUUID uA = true → isValidUUID uB = true →
      isValidUUID uC = true → lookupEvent db id = some e → e.capacity = 2 →
      countRegistrations db id = 0 →
      userExists db uA → userExists db uB → userExists db uC →
      uA ≠ uB → uA ≠ uC → uB ≠ uC →
      (∀ env ∈ [env1, env2, env3, env4, env5], env.fault = none ∧ env.now < e.starts_at) →
      let s1 := registerUserForEvent env1 ⟨id, some uA⟩ db
      let s2 := registerUserForEvent env2 ⟨id, some uB⟩ s1.2
      let s3 := registerUserForEvent env3 ⟨id, some uC⟩ s2.2
      let s4 := cancelUserRegistration env4 ⟨id, some uA⟩ s3.2
      let s5 := registerUserForEvent env5 ⟨id, some uC⟩ s4.2
      s1.1 = .registered env1.newId env1.now
        ("Successfully registered for event: " ++ e.title) 1 ∧
      s2.1 = .registered env2.newId env2.now
        ("Successfully registered for event: " ++ e.title) 0 ∧
      s3.1 = .error 422 "BUSINESS_LOGIC_ERROR" (fullCapacityMessage 2 2) ∧
      s4.1 = .cancelled "Registration cancelled successfully" e.title ∧
      s5.1 = .registered env5.newId env5.now
        ("Successfully registered for event: " ++ e.title) 0) :=
  ⟨fun env1 env2 env3 id uA uC db e hinv huniq hlook hfull _ hcancel hfut hf => by
      obtain ⟨_, _, _, _, _, _, _, _, _, _, hres⟩ := register_full_inv _ _ _ hfull
      have hsame : (registerUserForEvent env1 ⟨id, some uC⟩ db).2 = db := by rw [hres]
      rw [hsame] at hcancel ⊢
      exact seat_freed_after_cancel env1 env2 env3 id uA uC db e hinv huniq hlook hfull
        hcancel hfut hf,
    fun id uA uB uC db e env1 env2 env3 env4 env5 hid hA hB hC hlook hcap hempty hexA hexB hexC
        hAB hAC hBC hlive =>
      scenario_capacity_two id uA uB uC db e env1 env2 env3 env4 env5 hid hA hB hC hlook hcap
        hempty hexA hexB hexC hAB hAC hBC hlive⟩

/-- Witness of C9 on the sample ledgers: the full ledger frees the seat of A
for C, and the scenario runs from the empty ledger. -/
theorem freed_seat_witness :
    (registerUserForEvent ⟨7, "r4", none⟩ ⟨sampleEventId, some userC⟩
        (cancelUserRegistration ⟨6, "x", none⟩ ⟨sampleEventId, some userA⟩
          (registerUserForEvent ⟨5, "r3", none⟩ ⟨sampleEventId, some userC⟩
            sampleLedgerAB).2).2).1 =
      .registered "r4" 7 ("Successfully registered for event: " ++ sampleEvent.title) 0 ∧
    (let s1 := registerUserForEvent ⟨1, "r1", none⟩ ⟨sampleEventId, some userA⟩ sampleLedger
     let s2 := registerUserForEvent ⟨2, "r2", none⟩ ⟨sampleEventId, some userB⟩ s1.2
     let s3 := registerUserForEvent ⟨3, "r3", none⟩ ⟨sampleEventId, some userC⟩ s2.2
     let s4 := cancelUserRegistration ⟨4, "x", none⟩ ⟨sampleEventId, some userA⟩ s3.2
     let s5 := registerUserForEvent ⟨5, "r5", none⟩ ⟨sampleEventId, some userC⟩ s4.2
     s1.1 = .registered "r1" 1 ("Successfully registered for event: " ++ sampleEvent.title) 1 ∧
     s2.1 = .registered "r2" 2 ("Successfully registered for event: " ++ sampleEvent.title) 0 ∧
     s3.1 = .error 422 "BUSINESS_LOGIC_ERROR" (fullCapacityMessage 2 2) ∧
     s4.1 = .cancelled "Registration cancelled successfully" sampleEvent.title ∧
     s5.1 = .registered "r5" 5
       ("Successfully registered for event: " ++ sampleEvent.title) 0) :=
  ⟨freed_seat.1 ⟨5, "r3", none⟩ ⟨6, "x", none⟩ ⟨7, "r4", none⟩ sampleEventId userA userC
      sampleLedgerAB sampleEvent (by decide) (by decide) (by decide) ⟨2, 2, by decide⟩
      (by decide) (by decide) (by decide) rfl,
    freed_seat.2 sampleEventId userA userB userC sampleLedger sampleEvent
      ⟨1, "r1", none⟩ ⟨2, "r2", none⟩ ⟨3, "r3", none⟩ ⟨4, "x", none⟩ ⟨5, "r5", none⟩
      (by decide) (by decide) (by decide) (by decide) (by decide) (by decide) (by decide)
      (by decide) (by decide) (by decide) (by decide) (by decide) (by decide) (by decide)⟩

/-- Claim C10: in a ledger that satisfies the capacity invariant, whenever
`registerUserForEvent` fails for lack of capacity, its message
`Event is at full capacity (x/y)` has for `x` the number of registrations the
event currently has and for `y` the capacity of the event. -/
theorem full_capacity_message_reports_count (env : Env) (req : Request) (db : Ledger)
    (hinv : CapacityInvariant db)
    (h : (registerUserForEvent env req db).1.isCapacityExceeded) :
    ∃ e, lookupEvent db req.id = some e ∧
      (registerUserForEvent env req db).1 =
        .error 422 "BUSINESS_LOGIC_ERROR"
          (fullCapacityMessage (countRegistrations db req.id : Nat) e.capacity) := by
  obtain ⟨u, e, _, _, _, hlook, _, _, _, hge, hres⟩ := register_full_inv _ _ _ h
  have hle := hinv e (lookupEvent_some db req.id e hlook).1
  rw [(lookupEvent_some db req.id e hlook).2] at hle
  refine ⟨e, hlook, ?_⟩
  rw [hres]
  have : (countRegistrations db req.id : Int) = e.capacity := le_antisymm hle hge
  rw [this]

/-- Witness of C10: user C is refused on the full sample ledger, which holds
2 registrations for a capacity of 2. -/
theorem full_capacity_message_reports_count_witness :
    CapacityInvariant sampleLedgerAB ∧
    ∃ e, lookupEvent sampleLedgerAB sampleEventId = some e ∧
      (registerUserForEvent ⟨0, "r3", none⟩ ⟨sampleEventId, some userC⟩ sampleLedgerAB).1 =
        .error 422 "BUSINESS_LOGIC_ERROR"
          (fullCapacityMessage (countRegistrations sampleLedgerAB sampleEventId : Nat)
            e.capacity) :=
  ⟨by decide,
    full_capacity_message_reports_count ⟨0, "r3", none⟩ ⟨sampleEventId, some userC⟩
      sampleLedgerAB (by decide) ⟨2, 2, by decide⟩⟩

/-! ## The listing, the statistics and the creation of events -/

theorem filter_key_singleton {κ : Type} [DecidableEq κ] (f : Event → κ) (e : Event) :
    ∀ l : List Event, (l.map f).Nodup → e ∈ l → l.filter (fun x => f x = f e) = [e] := by
  intro l
  induction l with
  | nil => intro _ h; cases h
  | cons a t ih =>
    intro hnd hmem
    simp only [List.map_cons, List.nodup_cons] at hnd
    rcases List.mem_cons.mp hmem with rfl | hmem'
    · have hrest : t.filter (fun x => f x = f e) = [] := by
        rw [List.filter_eq_nil_iff]
        intro x hx hfx
        have hfx' : f x = f e := by simpa using hfx
        exact hnd.1 (hfx' ▸ List.mem_map_of_mem f hx)
      simp [List.filter_cons, hrest]
    · have hne : f a ≠ f e := fun h => hnd.1 (h ▸ List.mem_map_of_mem f hmem')
      simp [List.filter_cons, hne, ih hnd.2 hmem']

theorem upcomingKey_nodup (now : Int) (db : Ledger) (hkey : EventIdsUnique db) :
    ((upcomingEvents now db).map upcomingKey).Nodup := by
  have h1 : ((upcomingEvents now db).map Event.id).Nodup :=
    hkey.sublist ((List.filter_sublist db.events).map Event.id)
  have h2 : ((upcomingEvents now db).map upcomingKey).map Prod.fst =
      (upcomingEvents now db).map Event.id := by
    rw [List.map_map]; rfl
  rw [← h2] at h1
  exact List.Nodup.of_map _ h1

theorem upcomingRow_eq (db : Ledger) (es : List Event) (hnd : (es.map upcomingKey).Nodup)
    (e : Event) (he : e ∈ es) : upcomingRow db es (upcomingKey e) = eventRow db e := by
  unfold upcomingRow groupCount
  rw [filter_key_singleton upcomingKey e es hnd he]
  simp [eventRow, upcomingKey]

theorem upcomingListing_eq (now : Int) (db : Ledger) (hkey : EventIdsUnique db) :
    upcomingListing now db =
      ((upcomingEvents now db).map (eventRow db)).insertionSort
        (fun a b => orderedBefore a b = true) := by
  have hnd := upcomingKey_nodup now db hkey
  unfold upcomingListing
  simp only [hnd.dedup, List.map_map]
  congr 1
  apply List.map_congr_left
  intro e he
  exact upcomingRow_eq db _ hnd e he

theorem locationBefore_total (x y : Option String) :
    locationBefore x y = true ∨ locationBefore y x = true := by
  cases x <;> cases y <;> simp [locationBefore]
  exact le_total _ _

theorem locationBefore_trans (x y z : Option String) (h1 : locationBefore x y = true)
    (h2 : locationBefore y z = true) : locationBefore x z = true := by
  cases x <;> cases y <;> cases z <;> simp_all [locationBefore]
  exact le_trans h1 h2

theorem orderedBefore_starts (a b : UpcomingRow) (h : orderedBefore a b = true) :
    a.starts_at ≤ b.starts_at := by
  simp only [orderedBefore, Bool.or_eq_true, decide_eq_true_eq, Bool.and_eq_true, beq_iff_eq]
    at h
  rcases h with h | ⟨h, _⟩ <;> omega

theorem orderedBefore_isTotal : IsTotal UpcomingRow (fun a b => orderedBefore a b = true) where
  total a b := by
    simp only [orderedBefore, Bool.or_eq_true, decide_eq_true_eq, Bool.and_eq_true, beq_iff_eq]
    rcases lt_trichotomy a.starts_at b.starts_at with h | h | h
    · exact Or.inl (Or.inl h)
    · rcases locationBefore_total a.location b.location with h' | h'
      · exact Or.inl (Or.inr ⟨h, h'⟩)
      · exact Or.inr (Or.inr ⟨h.symm, h'⟩)
    · exact Or.inr (Or.inl h)

theorem orderedBefore_isTrans : IsTrans UpcomingRow (fun a b => orderedBefore a b = true) where
  trans a b c := by
    simp only [orderedBefore, Bool.or_eq_true, decide_eq_true_eq, Bool.and_eq_true, beq_iff_eq]
    rintro (h1 | ⟨h1, l1⟩) (h2 | ⟨h2, l2⟩)
    · exact Or.inl (by omega)
    · exact Or.inl (by omega)
    · exact Or.inl (by omega)
    · exact Or.inr ⟨by omega, locationBefore_trans _ _ _ l1 l2⟩

theorem upcomingListing_sorted (now : Int) (db : Ledger) :
    (upcomingListing now db).Sorted (fun a b => a.starts_at ≤ b.starts_at) := by
  unfold upcomingListing
  have hs := @List.sorted_insertionSort UpcomingRow (fun a b => orderedBefore a b = true) _
    orderedBefore_isTotal orderedBefore_isTrans
    ((((upcomingEvents now db).map upcomingKey).dedup).map
      (upcomingRow db (upcomingEvents now db)))
  exact hs.imp (fun {a b} h => orderedBefore_starts a b h)

theorem upcomingListing_length (now : Int) (db : Ledger) (hkey : EventIdsUnique db) :
    (upcomingListing now db).length = (upcomingEvents now db).length := by
  rw [upcomingListing_eq now db hkey, List.length_insertionSort, List.length_map]

theorem sorted_perm_three (l : List UpcomingRow) (r1 r2 r3 : UpcomingRow)
    (hp : l.Perm [r1, r2, r3]) (hs : l.Sorted (fun a b => a.starts_at ≤ b.starts_at))
    (h12 : r1.starts_at < r2.starts_at) (h23 : r2.starts_at < r3.starts_at) :
    l = [r1, r2, r3] := by
  have hm : l.map UpcomingRow.starts_at = [r1.starts_at, r2.starts_at, r3.starts_at] := by
    apply List.eq_of_perm_of_sorted (r := (· ≤ ·)) (hp.map _)
    · exact List.pairwise_map.mpr hs
    · refine List.Pairwise.cons ?_ (List.Pairwise.cons ?_ (List.pairwise_singleton _ _))
      · intro t ht
        simp only [List.map_cons, List.map_nil, List.mem_cons, List.mem_singleton,
          List.not_mem_nil, or_false] at ht
        rcases ht with rfl | rfl <;> omega
      · intro t ht
        simp only [List.map_cons, List.map_nil, List.mem_singleton] at ht
        subst ht; omega
  obtain ⟨x, y, z, rfl⟩ := List.length_eq_three.mp (by simpa using hp.length_eq)
  simp only [List.map_cons, List.map_nil, List.cons.injEq, and_true] at hm
  obtain ⟨hx, hy, hz⟩ := hm
  have mx : x ∈ [r1, r2, r3] := hp.subset (by simp)
  have my : y ∈ [r1, r2, r3] := hp.subset (by simp)
  have mz : z ∈ [r1, r2, r3] := hp.subset (by simp)
  simp only [List.mem_cons, List.mem_singleton, List.not_mem_nil, or_false] at mx my mz
  have ex : x = r1 := by
    rcases mx with h | h | h
    · exact h
    · rw [h] at hx; omega
    · rw [h] at hx; omega
  have ey : y = r2 := by
    rcases my with h | h | h
    · rw [h] at hy; omega
    · exact h
    · rw [h] at hy; omega
  have ez : z = r3 := by
    rcases mz with h | h | h
    · rw [h] at hz; omega
    · rw [h] at hz; omega
    · exact h
  rw [ex, ey, ez]

theorem upcomingEvents_length (now : Int) (db : Ledger) :
    (upcomingEvents now db).length = upcomingCount now db := by
  unfold upcomingEvents upcomingCount
  rw [List.countP_eq_length_filter]

theorem lostBits_of_lt (n : Nat) (h : n < 2 ^ 53) : lostBits n n = 0 := by
  cases n with
  | zero => rfl
  | succ k => rw [lostBits, if_pos h]

theorem roundToDouble_of_lt (n : Nat) (h : n < 2 ^ 53) : roundToDouble n = n := by
  unfold roundToDouble
  rw [lostBits_of_lt n h]
  simp [Nat.mod_one]

theorem roundToDouble_of_le (n : Nat) (h : n ≤ 2 ^ 53) : roundToDouble n = n := by
  rcases Nat.lt_or_ge n (2 ^ 53) with h1 | h1
  · exact roundToDouble_of_lt n h1
  · have hn : n = 2 ^ 53 := le_antisymm h h1
    subst hn
    decide

theorem lostBits_quotient (fuel : Nat) :
    ∀ n, 2 ^ 52 ≤ n → 2 ^ 52 ≤ n / 2 ^ lostBits fuel n := by
  induction fuel with
  | zero => intro n h; simpa [lostBits] using h
  | succ f ih =>
    intro n h
    by_cases hn : n < 2 ^ 53
    · rw [lostBits, if_pos hn]
      simpa using h
    · have h2 : 2 ^ 52 ≤ n / 2 := by omega
      have h3 := ih (n / 2) h2
      rw [Nat.div_div_eq_div_mul, ← pow_succ'] at h3
      rw [lostBits, if_neg hn]
      exact h3

theorem lostBits_enough (fuel : Nat) :
    ∀ n, n < 2 ^ 53 * 2 ^ fuel → n / 2 ^ lostBits fuel n < 2 ^ 53 := by
  induction fuel with
  | zero => intro n h; simpa [lostBits] using h
  | succ f ih =>
    intro n h
    by_cases hn : n < 2 ^ 53
    · rw [lostBits, if_pos hn]
      simpa using hn
    · have h2 : n / 2 < 2 ^ 53 * 2 ^ f := by
        rw [pow_succ] at h
        omega
      have h3 := ih (n / 2) h2
      rw [Nat.div_div_eq_div_mul, ← pow_succ'] at h3
      rw [lostBits, if_neg hn]
      exact h3

theorem lostBits_self (n : Nat) : n / 2 ^ lostBits n n < 2 ^ 53 := by
  apply lostBits_enough n n
  have h1 : n < 2 ^ n := Nat.lt_two_pow n
  have h2 : 2 ^ n ≤ 2 ^ 53 * 2 ^ n := Nat.le_mul_of_pos_left _ (by norm_num)
  omega

theorem roundToDouble_ge (n : Nat) (h : 2 ^ 53 ≤ n) : 2 ^ 53 ≤ roundToDouble n := by
  have he : 1 ≤ lostBits n n := by
    cases n with
    | zero => omega
    | succ k =>
      rw [lostBits, if_neg (not_lt.mpr h)]
      omega
  have hq := lostBits_quotient n n (by omega)
  have hpow : 2 ^ 1 ≤ 2 ^ lostBits n n := Nat.pow_le_pow_right (by norm_num) he
  have hmul : 2 ^ 52 * 2 ^ 1 ≤ n / 2 ^ lostBits n n * 2 ^ lostBits n n :=
    Nat.mul_le_mul hq hpow
  have hle : n / 2 ^ lostBits n n * 2 ^ lostBits n n ≤ roundToDouble n := by
    unfold roundToDouble
    simp only []
    split
    · exact Nat.mul_le_mul_right _ (Nat.le_succ _)
    · exact le_refl _
  omega

theorem lostBits_eq_ten (n : Nat) (h1 : 2 ^ 62 ≤ n) (h2 : n < 2 ^ 63) : lostBits n n = 10 := by
  have hq := lostBits_quotient n n (by omega)
  have hs := lostBits_self n
  rcases Nat.lt_trichotomy (lostBits n n) 10 with h | h | h
  · exfalso
    have hp : 2 ^ lostBits n n ≤ 2 ^ 9 := Nat.pow_le_pow_right (by norm_num) (by omega)
    have hd : n / 2 ^ 9 ≤ n / 2 ^ lostBits n n := Nat.div_le_div_left hp (by positivity)
    omega
  · exact h
  · exfalso
    have hp : 2 ^ 11 ≤ 2 ^ lostBits n n := Nat.pow_le_pow_right (by norm_num) (by omega)
    have hd : n / 2 ^ lostBits n n ≤ n / 2 ^ 11 := Nat.div_le_div_left hp (by positivity)
    omega

theorem roundToDouble_lt_of_le (n : Nat) (h : n ≤ 9223372036854775295) :
    roundToDouble n < 2 ^ 63 := by
  rcases Nat.lt_or_ge n (2 ^ 53) with h1 | h1
  · rw [roundToDouble_of_lt n h1]; omega
  · rcases Nat.lt_or_ge n (2 ^ 62) with h2 | h2
    · have hq := lostBits_quotient n n (by omega)
      have hmul : 2 ^ 52 * 2 ^ lostBits n n ≤ n / 2 ^ lostBits n n * 2 ^ lostBits n n :=
        Nat.mul_le_mul_right _ hq
      have hdiv : n / 2 ^ lostBits n n * 2 ^ lostBits n n ≤ n := Nat.div_mul_le_self n _
      have hle : roundToDouble n ≤
          n / 2 ^ lostBits n n * 2 ^ lostBits n n + 2 ^ lostBits n n := by
        unfold roundToDouble
        simp only []
        split
        · rw [Nat.add_mul, Nat.one_mul]
        · exact Nat.le_add_right _ _
      omega
    · have he := lostBits_eq_ten n h2 (by omega)
      unfold roundToDouble
      simp only [he]
      split <;> omega

theorem roundToDouble_ge_of_ge (n : Nat) (h : 9223372036854775296 ≤ n) :
    2 ^ 63 ≤ roundToDouble n := by
  rcases Nat.lt_or_ge n (2 ^ 63) with h1 | h1
  · have he := lostBits_eq_ten n (by omega) h1
    unfold roundToDouble
    simp only [he]
    split
    · omega
    · rename_i hc
      exfalso
      apply hc
      omega
  · have hq := lostBits_quotient n n (by omega)
    have hs := lostBits_self n
    have he : 11 ≤ lostBits n n := by
      by_contra hlt
      have hp : 2 ^ lostBits n n ≤ 2 ^ 10 := Nat.pow_le_pow_right (by norm_num) (by omega)
      have hd : n / 2 ^ 10 ≤ n / 2 ^ lostBits n n := Nat.div_le_div_left hp (by positivity)
      omega
    have hpow : 2 ^ 11 ≤ 2 ^ lostBits n n := Nat.pow_le_pow_right (by norm_num) he
    have hmul : 2 ^ 52 * 2 ^ 11 ≤ n / 2 ^ lostBits n n * 2 ^ lostBits n n :=
      Nat.mul_le_mul hq hpow
    have hle : n / 2 ^ lostBits n n * 2 ^ lostBits n n ≤ roundToDouble n := by
      unfold roundToDouble
      simp only []
      split
      · exact Nat.mul_le_mul_right _ (Nat.le_succ _)
      · exact le_refl _
    omega

theorem shortestDecimal_of_lt (x : Nat) (h : x < 2 ^ 53) : ∀ j, shortestDecimal x j = x := by
  intro j
  induction j with
  | zero => rfl
  | succ j ih =>
    have hp : 0 < 10 ^ (j + 1) := by positivity
    have hlo : x / 10 ^ (j + 1) * 10 ^ (j + 1) ≤ x := Nat.div_mul_le_self x _
    have hhi : x < x / 10 ^ (j + 1) * 10 ^ (j + 1) + 10 ^ (j + 1) := Nat.lt_div_mul_add hp
    have hokHi : roundToDouble (x / 10 ^ (j + 1) * 10 ^ (j + 1) + 10 ^ (j + 1)) ≠ x := by
      by_cases hc : x / 10 ^ (j + 1) * 10 ^ (j + 1) + 10 ^ (j + 1) < 2 ^ 53
      · rw [roundToDouble_of_lt _ hc]; omega
      · have := roundToDouble_ge _ (not_lt.mp hc); omega
    have hokLo : roundToDouble (x / 10 ^ (j + 1) * 10 ^ (j + 1)) =
        x / 10 ^ (j + 1) * 10 ^ (j + 1) := roundToDouble_of_lt _ (lt_of_le_of_lt hlo h)
    unfold shortestDecimal
    simp only [hokHi, hokLo, decide_False, Bool.and_false, Bool.false_eq_true, if_false,
      decide_eq_true_eq, ih]
    split
    · assumption
    · rfl

theorem shortestDecimal_bounds (x : Nat) (h1 : 2 ^ 53 ≤ x) (h2 : x < 2 ^ 63) :
    ∀ j, 2 ^ 53 ≤ shortestDecimal x j ∧ shortestDecimal x j ≤ 2 ^ 63 - 1 := by
  intro j
  induction j with
  | zero => exact ⟨h1, by unfold shortestDecimal; omega⟩
  | succ j ih =>
    have hp : 0 < 10 ^ (j + 1) := by positivity
    have hlo : x / 10 ^ (j + 1) * 10 ^ (j + 1) ≤ x := Nat.div_mul_le_self x _
    have hhi : x < x / 10 ^ (j + 1) * 10 ^ (j + 1) + 10 ^ (j + 1) := Nat.lt_div_mul_add hp
    have okLo : roundToDouble (x / 10 ^ (j + 1) * 10 ^ (j + 1)) = x →
        2 ^ 53 ≤ x / 10 ^ (j + 1) * 10 ^ (j + 1) := by
      intro hr
      by_contra hc
      rw [roundToDouble_of_lt _ (not_le.mp hc)] at hr
      omega
    have okHi : roundToDouble (x / 10 ^ (j + 1) * 10 ^ (j + 1) + 10 ^ (j + 1)) = x →
        x / 10 ^ (j + 1) * 10 ^ (j + 1) + 10 ^ (j + 1) ≤ 2 ^ 63 - 1 := by
      intro hr
      by_contra hc
      have := roundToDouble_ge_of_ge _ (by omega :
        9223372036854775296 ≤ x / 10 ^ (j + 1) * 10 ^ (j + 1) + 10 ^ (j + 1))
      omega
    unfold shortestDecimal
    simp only [Bool.and_eq_true, decide_eq_true_eq]
    split_ifs with c1 c2 c3 c4 c5 c6
    · exact ⟨okLo c1.1, by omega⟩
    · exact ⟨by omega, okHi c1.2⟩
    · exact ⟨okLo c1.1, by omega⟩
    · exact ⟨by omega, okHi c1.2⟩
    · exact ⟨okLo c5, by omega⟩
    · exact ⟨by omega, okHi c6⟩
    · exact ih

theorem parseInt_of_mathInt (s : String) (m : Int) (hs : parseMathInt s = some m)
    (h0 : 0 ≤ m) (h1 : m ≤ 9223372036854775295) :
    parseInt s = .finite (roundToDouble m.toNat : Nat) := by
  have hm : m.natAbs = m.toNat := by omega
  have hlt := roundToDouble_lt_of_le m.toNat (by omega)
  have hbig : roundToDouble m.toNat < 16 ^ 256 := lt_trans hlt (by norm_num)
  have hneg : ¬ m < 0 := by omega
  unfold parseInt
  rw [hs]
  simp only [toNumber, hm]
  rw [if_pos hbig]
  simp [hneg]

theorem roundToDouble_eq_zero (n : Nat) (h : roundToDouble n = 0) : n = 0 := by
  rcases Nat.lt_or_ge n (2 ^ 53) with h1 | h1
  · rw [roundToDouble_of_lt n h1] at h; exact h
  · have := roundToDouble_ge n h1; omega

theorem orDefault_of_read (p : Option String) (d v : Int)
    (hr : (p = none ∧ v = d) ∨ (∃ s, p = some s ∧ parseMathInt s = some v))
    (h0 : 0 ≤ v) (h1 : v ≤ 9223372036854775295) (hd : v = 0 → d = 0) (hd1 : 0 ≤ d)
    (hd2 : d < 2 ^ 53) :
    orDefault (parseIntParam p) d = .finite (roundToDouble v.toNat : Nat) := by
  rcases hr with ⟨hp, hv⟩ | ⟨s, hp, hs⟩
  · subst hp; subst hv
    rw [roundToDouble_of_lt _ (by omega), Int.toNat_of_nonneg h0]
    rfl
  · subst hp
    simp only [parseIntParam, parseInt_of_mathInt s v hs h0 h1, orDefault]
    split
    · rename_i hv
      have hz : v.toNat = 0 := roundToDouble_eq_zero _ (by exact_mod_cast hv)
      have hv0 : v = 0 := by omega
      rw [hd hv0, hv]
    · rfl

theorem printedInt_of_le (x : Int) (h0 : 0 ≤ x) (h1 : x ≤ 2 ^ 53) : printedInt x = x := by
  have hneg : ¬ x < 0 := by omega
  rcases Nat.lt_or_ge x.natAbs (2 ^ 53) with h | h
  · simp only [printedInt, hneg, if_false, shortestDecimal_of_lt _ h]
    omega
  · have hx : x = 9007199254740992 := by omega
    subst hx
    decide

theorem printedInt_bounds (x : Nat) (h1 : 2 ^ 53 ≤ x) (h2 : x < 2 ^ 63) :
    2 ^ 53 ≤ printedInt (x : Nat) ∧ printedInt (x : Nat) ≤ 2 ^ 63 - 1 := by
  have hneg : ¬ ((x : Nat) : Int) < 0 := by omega
  have hb := shortestDecimal_bounds x h1 h2 (decimalLog x x + 1)
  simp only [printedInt, hneg, if_false, Int.natAbs_ofNat]
  omega

theorem storeRowCount_of_lt (x : Nat) (h : x < 2 ^ 63) :
    storeRowCount (.finite (x : Nat)) = some (printedInt (x : Nat)).toNat ∧
      (x < 2 ^ 53 → printedInt (x : Nat) = (x : Nat)) ∧
      (2 ^ 53 ≤ x → 2 ^ 53 ≤ printedInt (x : Nat)) := by
  have hc : ¬ ((x : Int) < 0 ∨ (10 : Int) ^ 21 ≤ (x : Int)) := by omega
  have hs : printedInt (x : Nat) ≤ 2 ^ 63 - 1 := by
    rcases Nat.lt_or_ge x (2 ^ 53) with h1 | h1
    · rw [printedInt_of_le _ (by omega) (by omega)]; omega
    · exact (printedInt_bounds x h1 h).2
  refine ⟨?_, fun h1 => printedInt_of_le _ (by omega) (by omega), fun h1 =>
    (printedInt_bounds x h1 h).1⟩
  simp only [storeRowCount, hc, hs, if_false, if_true]

theorem upcomingListing_length_le (now : Int) (db : Ledger) :
    (upcomingListing now db).length ≤ upcomingCount now db := by
  unfold upcomingListing
  rw [List.length_insertionSort, List.length_map, ← upcomingEvents_length]
  exact ((List.dedup_sublist _).length_le).trans (by rw [List.length_map])

theorem validatePaginationParams_valid (query : Query) (limit offset : Int)
    (hl : (query.limit = none ∧ limit = 20) ∨
      (∃ s, query.limit = some s ∧ parseMathInt s = some limit))
    (hl1 : 1 ≤ limit) (hl2 : limit ≤ 100)
    (ho : (query.offset = none ∧ offset = 0) ∨
      (∃ s, query.offset = some s ∧ parseMathInt s = some offset))
    (ho0 : 0 ≤ offset) (ho1 : offset ≤ 9223372036854775295) :
    validatePaginationParams query = [] := by
  obtain ⟨ql, qo⟩ := query
  have hlim : (match ql with
      | none => []
      | some limit =>
        if (parseInt limit).isNaN || (parseInt limit).lt 1 || (parseInt limit).gt 100 then
          ["Limit must be a number between 1 and 100"]
        else []) = [] := by
    rcases hl with ⟨hp, _⟩ | ⟨s, hp, hs⟩
    · simp only at hp; subst hp; rfl
    · simp only at hp; subst hp
      have h3 : ¬ limit < 1 := by omega
      have h4 : ¬ limit > 100 := by omega
      have h5 : ((roundToDouble limit.toNat : Nat) : Int) = limit := by
        rw [roundToDouble_of_lt _ (by omega)]; omega
      simp [parseInt_of_mathInt s limit hs (by omega) (by omega), JsInteger.isNaN,
        JsInteger.lt, JsInteger.gt, h5, h3, h4]
  have hoff : (match qo with
      | none => []
      | some offset =>
        if (parseInt offset).isNaN || (parseInt offset).lt 0 then
          ["Offset must be a non-negative number"]
        else []) = [] := by
    rcases ho with ⟨hp, _⟩ | ⟨s, hp, hs⟩
    · simp only at hp; subst hp; rfl
    · simp only at hp; subst hp
      simp [parseInt_of_mathInt s offset hs ho0 ho1, JsInteger.isNaN, JsInteger.lt]
  unfold validatePaginationParams
  simp only [hlim, hoff, List.append_nil]

theorem getUpcomingEvents_rounded (env : Env) (query : Query) (db : Ledger)
    (limit offset : Int) (hf : env.fault = none)
    (hl : (query.limit = none ∧ limit = 20) ∨
      (∃ s, query.limit = some s ∧ parseMathInt s = some limit))
    (hl1 : 1 ≤ limit) (hl2 : limit ≤ 100)
    (ho : (query.offset = none ∧ offset = 0) ∨
      (∃ s, query.offset = some s ∧ parseMathInt s = some offset))
    (ho0 : 0 ≤ offset) (ho1 : offset ≤ 9223372036854775295) :
    getUpcomingEvents env query db =
      .ok (((upcomingListing env.now db).drop
          (printedInt (roundToDouble offset.toNat : Nat)).toNat).take limit.toNat)
        { limit := limit, offset := printedInt (roundToDouble offset.toNat : Nat),
          total := printedInt (roundToDouble (upcomingCount env.now db) : Nat),
          hasMore := decide (addNumbers (roundToDouble offset.toNat : Nat) limit <
            (roundToDouble (upcomingCount env.now db) : Nat)),
          nextOffset :=
            if addNumbers (roundToDouble offset.toNat : Nat) limit <
                (roundToDouble (upcomingCount env.now db) : Nat)
            then some (printedInt (addNumbers (roundToDouble offset.toNat : Nat) limit))
            else none } := by
  have hvalid := validatePaginationParams_valid query limit offset hl hl1 hl2 ho ho0 ho1
  have hlim := orDefault_of_read query.limit 20 limit hl (by omega) (by omega) (by omega)
    (by omega) (by norm_num)
  have hlim2 : roundToDouble limit.toNat = limit.toNat := roundToDouble_of_lt _ (by omega)
  have hlim3 : ((limit.toNat : Nat) : Int) = limit := Int.toNat_of_nonneg (by omega)
  rw [hlim2, hlim3] at hlim
  have hoff := orDefault_of_read query.offset 0 offset ho ho0 ho1 (fun _ => rfl) (le_refl _)
    (by norm_num)
  have hpl : printedInt limit = limit := printedInt_of_le limit (by omega) (by omega)
  have hsl := (storeRowCount_of_lt limit.toNat (by omega)).1
  rw [hlim3, hpl] at hsl
  have hso := storeRowCount_of_lt (roundToDouble offset.toNat)
    (roundToDouble_lt_of_le _ (by omega))
  unfold getUpcomingEvents
  simp only [hvalid, List.length_nil, gt_iff_lt, lt_self_iff_false, if_false,
    throwsAt_none env hf, hlim, hoff, hsl, hso.1, upcomingEvents_length, decide_eq_true_eq, hpl]

theorem getUpcomingEvents_ok (env : Env) (query : Query) (db : Ledger) (limit offset : Int)
    (hf : env.fault = none)
    (hl : (query.limit = none ∧ limit = 20) ∨
      (∃ s, query.limit = some s ∧ parseMathInt s = some limit))
    (hl1 : 1 ≤ limit) (hl2 : limit ≤ 100)
    (ho : (query.offset = none ∧ offset = 0) ∨
      (∃ s, query.offset = some s ∧ parseMathInt s = some offset))
    (ho0 : 0 ≤ offset) (ho1 : offset ≤ 9223372036854775295)
    (hcount : upcomingCount env.now db ≤ 9007199254740992) :
    getUpcomingEvents env query db =
      .ok (((upcomingListing env.now db).drop offset.toNat).take limit.toNat)
        { limit := limit, offset := printedInt (roundToDouble offset.toNat : Nat),
          total := (upcomingCount env.now db : Nat),
          hasMore := decide (offset + limit < (upcomingCount env.now db : Nat)),
          nextOffset :=
            if offset + limit < (upcomingCount env.now db : Nat) then some (offset + limit)
            else none } := by
  rw [getUpcomingEvents_rounded env query db limit offset hf hl hl1 hl2 ho ho0 ho1,
    roundToDouble_of_le _ hcount,
    printedInt_of_le (upcomingCount env.now db : Nat) (by omega) (by omega)]
  have hlen := upcomingListing_length_le env.now db
  have hso := storeRowCount_of_lt (roundToDouble offset.toNat)
    (roundToDouble_lt_of_le _ (by omega))
  rcases Nat.lt_or_ge offset.toNat (2 ^ 53) with h1 | h1
  · have hx : roundToDouble offset.toNat = offset.toNat := roundToDouble_of_lt _ h1
    have hx2 : ((offset.toNat : Nat) : Int) = offset := Int.toNat_of_nonneg ho0
    have hx3 : printedInt offset = offset := printedInt_of_le offset ho0 (by omega)
    rw [hx, hx2, hx3]
    by_cases hsum : offset + limit ≤ 9007199254740992
    · have hadd : addNumbers offset limit = offset + limit := by
        have hneg : ¬ offset + limit < 0 := by omega
        have hr := roundToDouble_of_le (offset + limit).natAbs (by omega)
        simp only [addNumbers, hneg, if_false, hr]
        omega
      rw [hadd, printedInt_of_le (offset + limit) (by omega) (by omega)]
    · have hadd : (9007199254740992 : Int) ≤ addNumbers offset limit := by
        have hneg : ¬ offset + limit < 0 := by omega
        have hr := roundToDouble_ge (offset + limit).natAbs (by omega)
        simp only [addNumbers, hneg, if_false]
        omega
      have hn1 : ¬ addNumbers offset limit < (upcomingCount env.now db : Nat) := by omega
      have hn2 : ¬ offset + limit < (upcomingCount env.now db : Nat) := by omega
      simp only [hn1, hn2, decide_False, if_false]
  · have hx := roundToDouble_ge offset.toNat h1
    have hs := hso.2.2 hx
    have hadd : (9007199254740992 : Int) ≤
        addNumbers (roundToDouble offset.toNat : Nat) limit := by
      have hneg : ¬ ((roundToDouble offset.toNat : Nat) : Int) + limit < 0 := by omega
      have hr := roundToDouble_ge (((roundToDouble offset.toNat : Nat) : Int) + limit).natAbs
        (by omega)
      simp only [addNumbers, hneg, if_false]
      omega
    have hn1 : ¬ addNumbers (roundToDouble offset.toNat : Nat) limit <
        (upcomingCount env.now db : Nat) := by omega
    have hn2 : ¬ offset + limit < (upcomingCount env.now db : Nat) := by omega
    have hd1 : (upcomingListing env.now db).drop
        (printedInt (roundToDouble offset.toNat : Nat)).toNat = [] :=
      List.drop_eq_nil_iff.mpr (by omega)
    have hd2 : (upcomingListing env.now db).drop offset.toNat = [] :=
      List.drop_eq_nil_iff.mpr (by omega)
    simp only [hn1, hn2, decide_False, if_false, hd1, hd2]

theorem crowdLedger_unique (n : Nat) : EventIdsUnique (crowdLedger n) := by
  unfold EventIdsUnique crowdLedger
  simp only [List.map_map]
  apply List.Nodup.map _ (List.nodup_range n)
  intro i j h
  have h2 := congrArg (fun s : String => s.data.length) h
  simpa using h2

theorem crowdLedger_count (n : Nat) : upcomingCount 10 (crowdLedger n) = n := by
  unfold upcomingCount crowdLedger
  simp only []
  rw [List.countP_eq_length.mpr, List.length_map, List.length_range]
  intro e he
  obtain ⟨i, _, rfl⟩ := List.mem_map.mp he
  simp

/-- Claim C11, amended: for every ledger with at most 2^53 upcoming events
and every valid limit (1..100, 20 when absent) and offset (at least 0 and at
most 9223372036854775295, 0 when absent), with a store that does not fail
otherwise, `getUpcomingEvents` returns the page of the ordered listing and
the metadata `total` = number of events that start strictly after now,
`hasMore` = (`offset + limit < total`), `nextOffset` = `offset + limit` when
`hasMore`, else null; the offset of the metadata is the offset as the runtime
rounds and prints it, which is the offset itself up to 2^53. The listing is
ordered by start time and, event ids being unique, has one row for each
upcoming event, so `hasMore` holds exactly when a row lies after the page.
With three upcoming events at `T1 < T2 < T3`: limit 2, offset 0 gives the
events at `T1`, `T2`, `hasMore = true`, `nextOffset = 2`; limit 2, offset 2
gives the event at `T3`, `hasMore = false`, `nextOffset = null`. -/
theorem getUpcomingEvents_pagination :
    (∀ (env : Env) (query : Query) (db : Ledger) (limit offset : Int), env.fault = none →
      upcomingCount env.now db ≤ 9007199254740992 →
      ((query.limit = none ∧ limit = 20) ∨
        (∃ s, query.limit = some s ∧ parseMathInt s = some limit)) →
      1 ≤ limit → limit ≤ 100 →
      ((query.offset = none ∧ offset = 0) ∨
        (∃ s, query.offset = some s ∧ parseMathInt s = some offset)) →
      0 ≤ offset → offset ≤ 9223372036854775295 →
      validatePaginationParams query = [] ∧
      getUpcomingEvents env query db =
        .ok (((upcomingListing env.now db).drop offset.toNat).take limit.toNat)
          { limit := limit, offset := printedInt (roundToDouble offset.toNat : Nat),
            total := (upcomingCount env.now db : Nat),
            hasMore := decide (offset + limit < (upcomingCount env.now db : Nat)),
            nextOffset :=
              if offset + limit < (upcomingCount env.now db : Nat) then some (offset + limit)
              else none } ∧
      (offset ≤ 9007199254740992 → printedInt (roundToDouble offset.toNat : Nat) = offset) ∧
      (upcomingListing env.now db).Sorted (fun a b => a.starts_at ≤ b.starts_at) ∧
      (EventIdsUnique db →
        (upcomingListing env.now db).Perm ((upcomingEvents env.now db).map (eventRow db)) ∧
        (upcomingListing env.now db).length = upcomingCount env.now db ∧
        (offset + limit < (upcomingCount env.now db : Nat) ↔
          (upcomingListing env.now db).drop (offset.toNat + limit.toNat) ≠ []))) ∧
    (∀ (env : Env) (db : Ledger) (e1 e2 e3 : Event), env.fault = none → EventIdsUnique db →
      (upcomingEvents env.now db).Perm [e1, e2, e3] →
      e1.starts_at < e2.starts_at → e2.starts_at < e3.starts_at →
      getUpcomingEvents env ⟨some "2", some "0"⟩ db =
        .ok [eventRow db e1, eventRow db e2] ⟨2, 0, 3, true, some 2⟩ ∧
      getUpcomingEvents env ⟨some "2", some "2"⟩ db =
        .ok [eventRow db e3] ⟨2, 2, 3, false, none⟩) := by
  constructor
  · intro env query db limit offset hf hcount hl hl1 hl2 ho ho0 ho1
    refine ⟨validatePaginationParams_valid query limit offset hl hl1 hl2 ho ho0 ho1,
      getUpcomingEvents_ok env query db limit offset hf hl hl1 hl2 ho ho0 ho1 hcount, ?_,
      upcomingListing_sorted env.now db, ?_⟩
    · intro hle
      rw [roundToDouble_of_le _ (by omega), Int.toNat_of_nonneg ho0]
      exact printedInt_of_le offset ho0 (by omega)
    intro hkey
    have hlen : (upcomingListing env.now db).length = upcomingCount env.now db := by
      rw [upcomingListing_length env.now db hkey, upcomingEvents_length]
    refine ⟨?_, hlen, ?_⟩
    · rw [upcomingListing_eq env.now db hkey]
      exact List.perm_insertionSort _ _
    · rw [Ne, List.drop_eq_nil_iff, hlen]
      have h1 := Int.toNat_of_nonneg ho0
      have h2 := Int.toNat_of_nonneg (by omega : (0 : Int) ≤ limit)
      omega
  · intro env db e1 e2 e3 hf hkey hperm h12 h23
    have hlist : upcomingListing env.now db = [eventRow db e1, eventRow db e2, eventRow db e3] := by
      apply sorted_perm_three _ _ _ _ _ (upcomingListing_sorted env.now db) h12 h23
      rw [upcomingListing_eq env.now db hkey]
      exact (List.perm_insertionSort _ _).trans (hperm.map (eventRow db))
    have hcount : upcomingCount env.now db = 3 := by
      rw [← upcomingEvents_length, hperm.length_eq]; rfl
    have hp2 : parseMathInt "2" = some 2 := by decide
    have hp0 : parseMathInt "0" = some 0 := by decide
    have hr0 : printedInt (roundToDouble (0 : Int).toNat : Nat) = 0 := by decide
    have hr2 : printedInt (roundToDouble (2 : Int).toNat : Nat) = 2 := by decide
    constructor
    · rw [getUpcomingEvents_ok env ⟨some "2", some "0"⟩ db 2 0 hf (Or.inr ⟨"2", rfl, hp2⟩)
        (by decide) (by decide) (Or.inr ⟨"0", rfl, hp0⟩) (by decide) (by decide)
        (by rw [hcount]; decide), hr0]
      simp [hlist, hcount]
    · rw [getUpcomingEvents_ok env ⟨some "2", some "2"⟩ db 2 2 hf (Or.inr ⟨"2", rfl, hp2⟩)
        (by decide) (by decide) (Or.inr ⟨"2", rfl, hp2⟩) (by decide) (by decide)
        (by rw [hcount]; decide), hr2]
      simp [hlist, hcount]

/-- Witness of C11 on the sample listing ledger (events stored out of order
at times 3000, 1000, 2000, one past event): the two pages of the scenario, the
defaults of an empty query, and the offsets 9007199254740993 and
9223372036854775295, which the metadata shows as 9007199254740992 and
9223372036854775000. -/
theorem getUpcomingEvents_pagination_witness :
    (getUpcomingEvents ⟨10, "", none⟩ ⟨some "2", some "0"⟩ sampleListingLedger =
        .ok [eventRow sampleListingLedger ⟨"e1", "First", 1000, none, some "Hall", 5⟩,
            eventRow sampleListingLedger ⟨"e2", "Second", 2000, none, none, 1⟩]
          ⟨2, 0, 3, true, some 2⟩ ∧
      getUpcomingEvents ⟨10, "", none⟩ ⟨some "2", some "2"⟩ sampleListingLedger =
        .ok [eventRow sampleListingLedger ⟨"e3", "Third", 3000, none, none, 5⟩]
          ⟨2, 2, 3, false, none⟩) ∧
    getUpcomingEvents ⟨10, "", none⟩ ⟨none, none⟩ sampleListingLedger =
      .ok (((upcomingListing 10 sampleListingLedger).drop 0).take 20)
        ⟨20, 0, 3, false, none⟩ ∧
    getUpcomingEvents ⟨10, "", none⟩ ⟨some "2", some "9007199254740993"⟩ sampleListingLedger =
      .ok [] ⟨2, 9007199254740992, 3, false, none⟩ ∧
    getUpcomingEvents ⟨10, "", none⟩ ⟨some "2", some "9223372036854775295"⟩
        sampleListingLedger =
      .ok [] ⟨2, 9223372036854775000, 3, false, none⟩ :=
  ⟨getUpcomingEvents_pagination.2 ⟨10, "", none⟩ sampleListingLedger
      ⟨"e1", "First", 1000, none, some "Hall", 5⟩ ⟨"e2", "Second", 2000, none, none, 1⟩
      ⟨"e3", "Third", 3000, none, none, 5⟩ rfl (by decide) (by decide) (by decide) (by decide),
    (getUpcomingEvents_pagination.1 ⟨10, "", none⟩ ⟨none, none⟩ sampleListingLedger 20 0 rfl
      (by decide) (Or.inl ⟨rfl, rfl⟩) (by decide) (by decide) (Or.inl ⟨rfl, rfl⟩) (by decide)
      (by decide)).2.1,
    (getUpcomingEvents_pagination.1 ⟨10, "", none⟩ ⟨some "2", some "9007199254740993"⟩
      sampleListingLedger 2 9007199254740993 rfl (by decide) (Or.inr ⟨"2", rfl, by decide⟩)
      (by decide) (by decide) (Or.inr ⟨"9007199254740993", rfl, by decide⟩) (by decide)
      (by decide)).2.1,
    (getUpcomingEvents_pagination.1 ⟨10, "", none⟩ ⟨some "2", some "9223372036854775295"⟩
      sampleListingLedger 2 9223372036854775295 rfl (by decide) (Or.inr ⟨"2", rfl, by decide⟩)
      (by decide) (by decide) (Or.inr ⟨"9223372036854775295", rfl, by decide⟩) (by decide)
      (by decide)).2.1⟩

/-- Counterexample to C11 as stated, for every offset of at least 0 and for
every ledger. The offsets 9223372036854775296 and 99999999999999999999 pass
`validatePaginationParams`, the store refuses them, and the response is the
error 500, without metadata. On a ledger of 9007199254740993 (2^53 + 1)
upcoming events `total` is 9007199254740992. -/
theorem refused_offset_and_rounded_total :
    (parseMathInt "9223372036854775296" = some 9223372036854775296 ∧
      validatePaginationParams ⟨none, some "9223372036854775296"⟩ = [] ∧
      getUpcomingEvents ⟨10, "", none⟩ ⟨none, some "9223372036854775296"⟩
          sampleListingLedger =
        .error 500 "DATABASE_ERROR" "Failed to fetch upcoming events") ∧
    (parseMathInt "99999999999999999999" = some 99999999999999999999 ∧
      validatePaginationParams ⟨none, some "99999999999999999999"⟩ = [] ∧
      getUpcomingEvents ⟨10, "", none⟩ ⟨none, some "99999999999999999999"⟩
          sampleListingLedger =
        .error 500 "DATABASE_ERROR" "Failed to fetch upcoming events") ∧
    (EventIdsUnique (crowdLedger 9007199254740993) ∧
      upcomingCount 10 (crowdLedger 9007199254740993) = 9007199254740993 ∧
      ∃ rows, getUpcomingEvents ⟨10, "", none⟩ ⟨none, none⟩ (crowdLedger 9007199254740993) =
        .ok rows ⟨20, 0, 9007199254740992, true, some 20⟩) := by
  refine ⟨by decide, by decide, crowdLedger_unique _, crowdLedger_count _, ?_⟩
  have hres := getUpcomingEvents_rounded ⟨10, "", none⟩ ⟨none, none⟩
    (crowdLedger 9007199254740993) 20 0 rfl (Or.inl ⟨rfl, rfl⟩) (by decide) (by decide)
    (Or.inl ⟨rfl, rfl⟩) (by decide) (by decide)
  have h0 : roundToDouble (0 : Int).toNat = 0 := by decide
  have h1 : roundToDouble 9007199254740993 = 9007199254740992 := by decide
  have h2 : addNumbers ((0 : Nat) : Int) 20 = 20 := by decide
  have h3 : ((20 : Int) < ((9007199254740992 : Nat) : Int)) := by decide
  have h4 : printedInt ((0 : Nat) : Int) = 0 := by decide
  have h5 : printedInt ((9007199254740992 : Nat) : Int) = 9007199254740992 := by decide
  have h6 : printedInt 20 = 20 := by decide
  dsimp only at hres
  rw [crowdLedger_count, h0, h1, h2, h4, h5, h6] at hres
  simp only [h3, decide_True, if_true] at hres
  exact ⟨_, hres⟩

theorem filter_id_unique (id : String) (e : Event) :
    ∀ l : List Event, (l.map Event.id).Nodup → l.find? (fun x => x.id == id) = some e →
      l.filter (fun x => x.id == id) = [e] := by
  intro l
  induction l with
  | nil => intro _ h; simp at h
  | cons a t ih =>
    intro hnd hfind
    simp only [List.map_cons, List.nodup_cons] at hnd
    by_cases ha : a.id = id
    · have hae : a = e := by
        simpa [List.find?_cons, ha] using hfind
      subst hae
      have hrest : t.filter (fun x => x.id == id) = [] := by
        rw [List.filter_eq_nil_iff]
        intro x hx hxid
        apply hnd.1
        have hxid' : x.id = id := by simpa using hxid
        rw [ha, ← hxid']
        exact List.mem_map_of_mem Event.id hx
      simp [List.filter_cons, ha, hrest]
    · have hfind' : t.find? (fun x => x.id == id) = some e := by
        simpa [List.find?_cons, ha] using hfind
      simp [List.filter_cons, ha, ih hnd.2 hfind']

theorem selectEvent_unique (db : Ledger) (id : String) (e : Event) (hkey : EventIdsUnique db)
    (hlook : lookupEvent db id = some e) : selectEvent db id = [e] :=
  filter_id_unique id e db.events hkey hlook

theorem sqlRound2_nonneg_eq (x : ℚ) (hx : 0 ≤ x) : sqlRound2 x = (round (x * 100) : ℚ) / 100 := by
  unfold sqlRound2
  rw [if_pos hx, round_eq]

theorem statsQuery_unique (db : Ledger) (id : String) (e : Event) (hkey : EventIdsUnique db)
    (hlook : lookupEvent db id = some e) (hcap : e.capacity ≠ 0) :
    statsQuery db id = some [⟨e.capacity, (countRegistrations db id : Nat),
      e.capacity - (countRegistrations db id : Nat),
      sqlRound2 (((countRegistrations db id : Nat) : ℚ) / (e.capacity : ℚ) * 100)⟩] := by
  have hid := (lookupEvent_some db id e hlook).2
  unfold statsQuery
  simp only [selectEvent_unique db id e hkey hlook, List.map_cons, List.map_nil,
    List.dedup_cons_of_not_mem (List.not_mem_nil _), List.dedup_nil, List.any_cons, List.any_nil,
    Bool.or_false, beq_iff_eq, hcap, if_false, groupCount, List.filter_cons, List.filter_nil,
    decide_True, if_true, List.sum_cons, List.sum_nil, Nat.add_zero, hid]
  simp

/-- Claim C12: for an existing event of capacity `c >= 1` with `n`
registrations (ids well-formed, store not failing, event ids unique),
`getEventStats` returns `total_registrations = n`, `remaining_capacity =
c - n` and `percentage_used` = `n / c * 100` rounded to two decimal places
(a multiple of 1/100 within 1/200 of it); so the first two add up to `c`, and
`0 <= percentage_used <= 100` when `n <= c`. For an id without event it
answers 404 NOT_FOUND. With capacity 4 and 1 registration it returns
`percentage_used = 25` and `remaining_capacity = 3`. -/
theorem getEventStats_spec (env : Env) (id : String) (db : Ledger)
    (hid : isValidUUID id = true) (hf : env.fault = none) (hkey : EventIdsUnique db) :
    (lookupEvent db id = none →
      getEventStats env id db = .error 404 "NOT_FOUND" "Event not found") ∧
    (∀ e, lookupEvent db id = some e → 1 ≤ e.capacity →
      ∃ p : ℚ,
        getEventStats env id db =
          .ok (countRegistrations db id : Nat) (e.capacity - (countRegistrations db id : Nat)) p ∧
        p = (round (((countRegistrations db id : Nat) : ℚ) / (e.capacity : ℚ) * 100 * 100) : ℚ)
          / 100 ∧
        |((countRegistrations db id : Nat) : ℚ) / (e.capacity : ℚ) * 100 - p| ≤ 1 / 200 ∧
        ((countRegistrations db id : Nat) : Int) + (e.capacity - (countRegistrations db id : Nat))
          = e.capacity ∧
        (((countRegistrations db id : Nat) : Int) ≤ e.capacity → 0 ≤ p ∧ p ≤ 100) ∧
        (e.capacity = 4 → countRegistrations db id = 1 →
          getEventStats env id db = .ok 1 3 25)) := by
  constructor
  · intro hlook
    have hsel := (selectEvent_nil_iff db id).mpr hlook
    simp [getEventStats, hid, throwsAt_none env hf, statsQuery, hsel]
  · intro e hlook hcap
    have hq := statsQuery_unique db id e hkey hlook (by omega)
    have hres : getEventStats env id db =
        .ok (countRegistrations db id : Nat) (e.capacity - (countRegistrations db id : Nat))
          (sqlRound2 (((countRegistrations db id : Nat) : ℚ) / (e.capacity : ℚ) * 100)) := by
      simp [getEventStats, hid, throwsAt_none env hf, hq]
    have hc : (0 : ℚ) < (e.capacity : ℚ) := by exact_mod_cast (by omega : (0 : Int) < e.capacity)
    have hx : (0 : ℚ) ≤ ((countRegistrations db id : Nat) : ℚ) / (e.capacity : ℚ) * 100 := by
      positivity
    have hp := sqlRound2_nonneg_eq _ hx
    refine ⟨_, hres, hp, ?_, by ring, ?_, ?_⟩
    · rw [hp]
      have h := abs_sub_round (((countRegistrations db id : Nat) : ℚ) / (e.capacity : ℚ) * 100 * 100)
      rw [abs_le] at h ⊢
      constructor <;> linarith [h.1, h.2]
    · intro hle
      rw [hp]
      have hle' : ((countRegistrations db id : Nat) : ℚ) ≤ (e.capacity : ℚ) := by exact_mod_cast hle
      have hx100 : ((countRegistrations db id : Nat) : ℚ) / (e.capacity : ℚ) * 100 * 100 ≤ 10000 := by
        have : ((countRegistrations db id : Nat) : ℚ) / (e.capacity : ℚ) ≤ 1 :=
          (div_le_one hc).mpr hle'
        linarith
      have hr0 : (0 : ℤ) ≤ round (((countRegistrations db id : Nat) : ℚ) / (e.capacity : ℚ) * 100 * 100) := by
        rw [round_eq]
        apply Int.floor_nonneg.mpr
        linarith
      have hr1 : round (((countRegistrations db id : Nat) : ℚ) / (e.capacity : ℚ) * 100 * 100) ≤ (10000 : ℤ) := by
        rw [round_eq]
        apply Int.floor_le_iff.mpr
        push_cast
        linarith
      have hr0' : (0 : ℚ) ≤ (round (((countRegistrations db id : Nat) : ℚ) / (e.capacity : ℚ) * 100 * 100) : ℚ) := by
        exact_mod_cast hr0
      have hr1' : (round (((countRegistrations db id : Nat) : ℚ) / (e.capacity : ℚ) * 100 * 100) : ℚ) ≤ 10000 := by
        exact_mod_cast hr1
      constructor
      · positivity
      · linarith
    · intro h4 h1
      rw [hres, hp, h4, h1]
      have hr : round ((((1 : Nat) : ℚ) / ((4 : Int) : ℚ)) * 100 * 100) = (2500 : ℤ) := by
        have : (((1 : Nat) : ℚ) / ((4 : Int) : ℚ)) * 100 * 100 = ((2500 : ℤ) : ℚ) := by norm_num
        rw [this, round_intCast]
      rw [hr]
      norm_num

/-- Witness of C12 on the sample ledger with capacity 4 and one
registration. -/
theorem getEventStats_spec_witness :
    getEventStats ⟨0, "", none⟩ sampleEventId sampleStatsLedger = .ok 1 3 25 :=
  let ⟨_, h⟩ := (getEventStats_spec ⟨0, "", none⟩ sampleEventId sampleStatsLedger
    (by decide) rfl (by decide)).2 ⟨sampleEventId, "Launch", 1000, none, none, 4⟩
    (by decide) (by decide)
  h.2.2.2.2.2 rfl (by decide)

theorem titleErrors_nil (v : JsValue) (h : titleErrors v = []) :
    ∃ s, v = .string s ∧ jsTrim s ≠ "" ∧ 3 ≤ jsLength (jsTrim s) ∧ jsLength (jsTrim s) ≤ 255 := by
  cases v <;> simp only [titleErrors, reduceCtorEq] at h
  rename_i s
  refine ⟨s, rfl, ?_⟩
  split_ifs at h with h1 h2 h3
  simp only [Bool.or_eq_true, decide_eq_true_eq, not_or] at h1
  exact ⟨h1.2, by omega, by omega⟩

theorem startsAtErrors_nil (lib : DateLib) (now : Int) (v : JsValue)
    (h : startsAtErrors lib now v = []) :
    v.truthy = true ∧
      ∃ t, lib.newDate v = some t ∧ v = .string (lib.toISOString t) ∧ now < t := by
  unfold startsAtErrors at h
  split_ifs at h with h1 h2 h3
  simp only [Bool.not_eq_true', Bool.not_eq_false] at h1 h2 h3
  refine ⟨h1, ?_⟩
  unfold isValidISODate at h2
  unfold isFutureDate at h3
  cases ht : lib.newDate v with
  | none => rw [ht] at h2; simp at h2
  | some t =>
    rw [ht] at h2 h3
    exact ⟨t, rfl, by simpa using h2, by simpa using h3⟩

theorem endsAtErrors_nil (lib : DateLib) (starts ends : JsValue) (ts : Int)
    (hs : starts.truthy = true) (hts : lib.newDate starts = some ts)
    (h : endsAtErrors lib starts ends = []) :
    ends.truthy = false ∨
      (ends.truthy = true ∧
        ∃ te, lib.newDate ends = some te ∧ ends = .string (lib.toISOString te) ∧ ts < te) := by
  unfold endsAtErrors at h
  by_cases he : ends.truthy = true
  · right
    rw [if_pos he] at h
    split_ifs at h with h2 h3
    simp only [Bool.not_eq_true', Bool.not_eq_false] at h2
    simp only [hs, Bool.true_and, Bool.not_eq_true] at h3
    unfold isValidISODate at h2
    unfold dateLe at h3
    cases hte : lib.newDate ends with
    | none => rw [hte] at h2; simp at h2
    | some te =>
      rw [hte] at h2
      rw [hte, hts] at h3
      simp only [decide_eq_false_iff_not, not_le] at h3
      exact ⟨he, te, rfl, by simpa using h2, h3⟩
  · left
    simpa using he

theorem locationErrors_nil (v : JsValue) (h : locationErrors v = []) :
    v = .null ∨ v = .undefined ∨ ∃ s, v = .string s := by
  cases v <;> simp only [locationErrors, reduceCtorEq] at h <;> simp

theorem capacityErrors_nil (v : JsValue) (h : capacityErrors v = []) :
    ∃ n, v = .number n ∧ 1 ≤ n ∧ n ≤ 1000 := by
  unfold capacityErrors at h
  split_ifs at h with h1
  cases v <;> simp only [reduceCtorEq] at h
  rename_i n
  split_ifs at h with h2 h3
  exact ⟨n, rfl, by omega, by omega⟩


theorem truthy_false (v : JsValue) (h : v.truthy = false) :
    v = .undefined ∨ v = .null ∨ v = .bool false ∨ v = .number 0 ∨ v = .string "" := by
  cases v <;> simp_all [JsValue.truthy]

theorem insertedEvent_accepted (lib : DateLib) (newId : String) (body : EventData)
    (title : String) (t n : Int) (htitle : body.title = .string title)
    (ht : lib.newDate body.starts_at = some t) (hcap : body.capacity = .number n)
    (hends : body.ends_at.truthy = false ∨
      (body.ends_at.truthy = true ∧ ∃ te, lib.newDate body.ends_at = some te ∧ t < te))
    (hloc : body.location = .null ∨ body.location = .undefined ∨ ∃ s, body.location = .string s) :
    ∃ e l, insertedEvent lib newId body = some ⟨newId, jsTrim title, t, e, l, n⟩ ∧
      (∀ te, e = some te → t < te) ∧ (body.ends_at.truthy = false → e = none) := by
  unfold insertedEvent
  simp only [htitle, ht, hcap]
  have hl : ∃ l, (match body.location with
      | .null => some none
      | .undefined => some none
      | .string s => some (if jsTrim s = "" then none else some (jsTrim s))
      | _ => (none : Option (Option String))) = some l := by
    rcases hloc with h | h | ⟨s, h⟩ <;> rw [h] <;> exact ⟨_, rfl⟩
  obtain ⟨l, hl⟩ := hl
  rw [hl]
  rcases hends with he | ⟨he, te, hte, hlt⟩
  · refine ⟨none, l, ?_, ?_, fun _ => rfl⟩
    · simp [he]
    · intro te h; cases h
  · refine ⟨some te, l, ?_, ?_, ?_⟩
    · simp [he, hte]
    · intro te' h; cases h; exact hlt
    · intro h; rw [he] at h; cases h

/-- Claim C13 as stated fails: the body with `ends_at: false` (a title, a
valid future `starts_at`, capacity 50) is accepted by `validateEventData`,
although its `ends_at` is neither absent (undefined or null) nor a value that
reads as a timestamp strictly after `starts_at`. -/
theorem false_ends_at_is_accepted :
    validateEventData sampleDateLib 1000 sampleEventDataFalseEnd = [] ∧
    ¬ (sampleEventDataFalseEnd.ends_at = .undefined ∨ sampleEventDataFalseEnd.ends_at = .null ∨
      ∃ ts te, sampleDateLib.newDate sampleEventDataFalseEnd.starts_at = some ts ∧
        sampleDateLib.newDate sampleEventDataFalseEnd.ends_at = some te ∧ ts < te) := by
  refine ⟨by decide, ?_⟩
  rintro (h | h | ⟨ts, te, hs, he, hlt⟩)
  · exact absurd h (by decide)
  · exact absurd h (by decide)
  · have hs' : sampleDateLib.newDate sampleEventDataFalseEnd.starts_at = some 1893456000000 := by
      decide
    have he' : sampleDateLib.newDate sampleEventDataFalseEnd.ends_at = some 0 := by decide
    rw [hs'] at hs
    rw [he'] at he
    cases hs
    cases he
    exact absurd hlt (by decide)

/-- Claim C13, amended: an event payload that `validateEventData` accepts
(empty error list) has a string title that is not empty after trimming, a
`starts_at` that is a valid timestamp strictly after the time of validation,
an `ends_at` that is falsy (undefined, null, `false`, 0 or the empty string)
or a valid timestamp strictly after `starts_at`, a location that is absent
or a string, and an integer capacity from 1 to 1000. `createEvent` then
inserts a row that satisfies the constraints of the data model, without end
time when `ends_at` is falsy, and inserts nothing for a payload that is not
accepted. -/
theorem validateEventData_accepts (lib : DateLib) (env : Env) (body : EventData) (db : Ledger) :
    (validateEventData lib env.now body = [] →
      (∃ title, body.title = .string title ∧ jsTrim title ≠ "") ∧
      (∃ t, body.starts_at = .string (lib.toISOString t) ∧
        lib.newDate body.starts_at = some t ∧ env.now < t ∧
        ((body.ends_at = .undefined ∨ body.ends_at = .null ∨ body.ends_at = .bool false ∨
            body.ends_at = .number 0 ∨ body.ends_at = .string "") ∨
          ∃ te, body.ends_at = .string (lib.toISOString te) ∧
            lib.newDate body.ends_at = some te ∧ t < te)) ∧
      (body.location = .null ∨ body.location = .undefined ∨ ∃ s, body.location = .string s) ∧
      (∃ n, body.capacity = .number n ∧ 1 ≤ n ∧ n ≤ 1000) ∧
      (env.fault = none →
        ∃ row, createEvent lib env body db =
            (.created env.newId "Event created successfully",
              { db with events := db.events ++ [row] }) ∧
          EventConstraints env.now row ∧
          (body.ends_at.truthy = false → row.ends_at = none))) ∧
    (validateEventData lib env.now body ≠ [] →
      ∃ m, createEvent lib env body db = (.error 400 "VALIDATION_ERROR" m, db)) := by
  constructor
  · intro h
    have h' := h
    unfold validateEventData at h'
    simp only [List.append_eq_nil] at h'
    obtain ⟨⟨⟨⟨h1, h2⟩, h3⟩, h4⟩, h5⟩ := h'
    obtain ⟨title, htitle, hne, _, _⟩ := titleErrors_nil _ h1
    obtain ⟨hst, t, ht, hts, hnow⟩ := startsAtErrors_nil lib env.now _ h2
    have hends := endsAtErrors_nil lib _ _ t hst ht h3
    have hloc := locationErrors_nil _ h4
    obtain ⟨n, hcap, hn1, hn2⟩ := capacityErrors_nil _ h5
    refine ⟨⟨title, htitle, hne⟩, ⟨t, hts, ht, hnow, ?_⟩, hloc, ⟨n, hcap, hn1, hn2⟩, ?_⟩
    · rcases hends with he | ⟨_, te, hte, htes, hlt⟩
      · exact Or.inl (truthy_false _ he)
      · exact Or.inr ⟨te, htes, hte, hlt⟩
    · intro hf
      obtain ⟨e, l, hrow, hafter, hnone⟩ := insertedEvent_accepted lib env.newId body title t n
        htitle ht hcap (by
          rcases hends with he | ⟨he, te, hte, _, hlt⟩
          · exact Or.inl he
          · exact Or.inr ⟨he, te, hte, hlt⟩) hloc
      refine ⟨⟨env.newId, jsTrim title, t, e, l, n⟩, ?_, ?_, hnone⟩
      · unfold createEvent
        simp only [h, List.length_nil, gt_iff_lt, lt_self_iff_false, if_false,
          throwsAt_none env hf, hrow]
      · exact ⟨hne, hnow, hafter, hn1, hn2⟩
  · intro h
    refine ⟨"; ".intercalate (validateEventData lib env.now body), ?_⟩
    unfold createEvent
    have hpos : (validateEventData lib env.now body).length > 0 :=
      List.length_pos.mpr h
    simp only [hpos, if_true]

/-- Witness of C13 on the two sample bodies: both are accepted, the capacity
is an integer from 1 to 1000, the row `createEvent` inserts satisfies the
constraints, and the body with `ends_at: false` is stored without end time. -/
theorem validateEventData_accepts_witness :
    validateEventData sampleDateLib 1000 sampleEventData = [] ∧
    (∃ n, sampleEventData.capacity = .number n ∧ 1 ≤ n ∧ n ≤ 1000) ∧
    (∃ row, createEvent sampleDateLib ⟨1000, "e9", none⟩ sampleEventData sampleLedger =
        (.created "e9" "Event created successfully",
          { sampleLedger with events := sampleLedger.events ++ [row] }) ∧
      EventConstraints 1000 row ∧ (sampleEventData.ends_at.truthy = false → row.ends_at = none)) ∧
    (∃ row, createEvent sampleDateLib ⟨1000, "e9", none⟩ sampleEventDataFalseEnd sampleLedger =
        (.created "e9" "Event created successfully",
          { sampleLedger with events := sampleLedger.events ++ [row] }) ∧
      EventConstraints 1000 row ∧
      (sampleEventDataFalseEnd.ends_at.truthy = false → row.ends_at = none)) :=
  ⟨by decide,
    ((validateEventData_accepts sampleDateLib ⟨1000, "e9", none⟩ sampleEventData
      sampleLedger).1 (by decide)).2.2.2.1,
    ((validateEventData_accepts sampleDateLib ⟨1000, "e9", none⟩ sampleEventData
      sampleLedger).1 (by decide)).2.2.2.2 rfl,
    ((validateEventData_accepts sampleDateLib ⟨1000, "e9", none⟩ sampleEventDataFalseEnd
      sampleLedger).1 (by decide)).2.2.2.2 rfl⟩

end EventApi
